import Mathlib

/-!
# Verification of the bq-backup-and-restore orchestration engine

A shallow embedding of the TypeScript sources of `bq-backup-and-restore`
(`utils.ts`, `list-backups.ts`, `delete-backups.ts`, `backup.ts`, `restore.ts`,
`constants.ts`) together with proofs about the backup/restore/delete
orchestration: the identifier codec, the retention calculator, enumeration,
grouping, and the partial-failure aggregation of the backup and restore
orchestrators.

JavaScript `Date` values are modelled as their ECMAScript time value: an
integer count of milliseconds since the Unix epoch, UTC, with no leap
seconds.  The `getUTC*` accessors, `Date.UTC`, and `setUTCDate` are embedded
as arithmetic on that integer, following the ECMA-262 definitions of
`Day`, `TimeWithinDay`, `YearFromTime`, `MonthFromTime`, `DateFromTime`,
`MakeDay` and `MakeDate`.  The proleptic-Gregorian calendar conversions are
implemented with an exact era/century/quadrennium/year decomposition and
proved to be mutually inverse.

JavaScript strings are modelled as `List Char`; `String.prototype.split`,
`join`, `startsWith`, `includes`, `substring`, `padStart` and `parseInt`
are embedded directly.
-/

/-! ## The ECMAScript Date model -/

/- A JavaScript `Date` is identified with its ECMAScript time value:
an `Int` of milliseconds since 1970-01-01T00:00:00Z. -/

def msPerSecond : Int := 1000
def msPerMinute : Int := 60000
def msPerHour : Int := 3600000
def msPerDay : Int := 86400000

/-- ECMA-262 `Day(t)`: whole days since the epoch (floor). -/
def dayNumber (t : Int) : Int := t / msPerDay

/-- ECMA-262 `TimeWithinDay(t)`: nonnegative millisecond offset in the day. -/
def timeWithinDay (t : Int) : Int := t % msPerDay

/-! ### Gregorian calendar: day number → civil date

The conversion works in the March-based calendar: day numbers are shifted so
that day 0 is 0000-03-01, then split into a 400-year era (146097 days) and a
day-of-era `doe < 146097`, which is further split exactly into a century, a
quadrennium, a year and a day-of-year. -/

/-- Century (0–3) within a 400-year era, from the day-of-era. -/
def centuryOf (doe : Nat) : Nat := (4 * doe + 3) / 146097

/-- Day within the century. -/
def docOf (doe : Nat) : Nat := doe - 36524 * centuryOf doe

/-- Quadrennium (0–24) within the century. -/
def quadOf (doe : Nat) : Nat := docOf doe / 1461

/-- Day within the quadrennium. -/
def dqOf (doe : Nat) : Nat := docOf doe - 1461 * quadOf doe

/-- Year (0–3) within the quadrennium; the final (leap) year absorbs day 1460. -/
def yqOf (doe : Nat) : Nat := min (dqOf doe / 365) 3

/-- Day of the (March-based) year, 0–365. -/
def doyOf (doe : Nat) : Nat := dqOf doe - 365 * yqOf doe

/-- Year of the era, 0–399. -/
def yoeOf (doe : Nat) : Nat := 100 * centuryOf doe + 4 * quadOf doe + yqOf doe

/-- Shifted month index 0–11, where 0 = March. -/
def mpOf (doe : Nat) : Nat := (5 * doyOf doe + 2) / 153

/-- Day of month, 1–31. -/
def domOf (doe : Nat) : Nat := doyOf doe - (153 * mpOf doe + 2) / 5 + 1

/-- Civil month 1–12 from the day-of-era. -/
def monthOf (doe : Nat) : Nat :=
  if mpOf doe < 10 then mpOf doe + 3 else mpOf doe - 9

/-- Days before year-of-era `yoe` within its era (March-based years). -/
def dby (yoe : Nat) : Nat := 365 * yoe + yoe / 4 - yoe / 100

/-- Days before shifted month `mp` within a (March-based) year. -/
def dbm (mp : Nat) : Nat := (153 * mp + 2) / 5

theorem centuryOf_spec (doe : Nat) (h : doe < 146097) :
    centuryOf doe ≤ 3 ∧ 36524 * centuryOf doe ≤ doe ∧
      doe - 36524 * centuryOf doe ≤ 36524 := by
  unfold centuryOf; omega

theorem docOf_spec (doe : Nat) (h : doe < 146097) :
    docOf doe ≤ 36524 ∧ 36524 * centuryOf doe + docOf doe = doe := by
  have := centuryOf_spec doe h
  unfold docOf; omega

theorem quadOf_spec (doe : Nat) (h : doe < 146097) :
    quadOf doe ≤ 24 ∧ 1461 * quadOf doe + dqOf doe = docOf doe ∧
      dqOf doe ≤ 1460 := by
  have := docOf_spec doe h
  unfold dqOf quadOf; omega

theorem yqOf_spec (doe : Nat) (h : doe < 146097) :
    yqOf doe ≤ 3 ∧ 365 * yqOf doe + doyOf doe = dqOf doe ∧
      doyOf doe ≤ 365 := by
  have := quadOf_spec doe h
  unfold doyOf yqOf; omega

theorem mpOf_spec (doe : Nat) (h : doe < 146097) :
    mpOf doe ≤ 11 ∧ dbm (mpOf doe) ≤ doyOf doe ∧
      dbm (mpOf doe) + domOf doe = doyOf doe + 1 ∧
      1 ≤ domOf doe ∧ domOf doe ≤ 31 := by
  have := yqOf_spec doe h
  unfold domOf dbm mpOf; omega

theorem yoeOf_le (doe : Nat) (h : doe < 146097) : yoeOf doe ≤ 399 := by
  have h1 := centuryOf_spec doe h
  have h2 := quadOf_spec doe h
  have h3 := yqOf_spec doe h
  unfold yoeOf; omega

theorem dby_yoeOf (doe : Nat) (h : doe < 146097) :
    dby (yoeOf doe) = 36524 * centuryOf doe + 1461 * quadOf doe + 365 * yqOf doe := by
  have h1 := centuryOf_spec doe h
  have h2 := quadOf_spec doe h
  have h3 := yqOf_spec doe h
  unfold dby yoeOf; omega

/-- Within one era, converting a day-of-era to (year, month, day) and back is
the identity. -/
theorem doe_roundtrip (doe : Nat) (h : doe < 146097) :
    dby (yoeOf doe) + dbm (mpOf doe) + domOf doe - 1 = doe := by
  have h1 := docOf_spec doe h
  have h2 := quadOf_spec doe h
  have h3 := yqOf_spec doe h
  have h4 := mpOf_spec doe h
  have h5 := dby_yoeOf doe h
  omega

theorem monthOf_range (doe : Nat) (h : doe < 146097) :
    1 ≤ monthOf doe ∧ monthOf doe ≤ 12 := by
  have := mpOf_spec doe h
  unfold monthOf; split <;> omega

/-- Shifted (March-based) month index 0–11 from a civil month 1–12. -/
def mpShift (m : Nat) : Nat := if 3 ≤ m then m - 3 else m + 9

/-- Recovering the shifted month from the civil month. -/
theorem mpOf_of_monthOf (doe : Nat) (h : doe < 146097) :
    mpShift (monthOf doe) = mpOf doe := by
  have := mpOf_spec doe h
  unfold mpShift monthOf
  by_cases hc : mpOf doe < 10
  · rw [if_pos hc, if_pos (by omega)]
    omega
  · rw [if_neg hc, if_neg (by omega)]
    omega

/-! ### Day number ↔ civil date, over all of `Int` -/

/-- 400-year era of a day number (era 0 starts 0000-03-01). -/
def eraOfDay (z : Int) : Int := (z + 719468) / 146097

/-- Day-of-era of a day number. -/
def doeOfDay (z : Int) : Nat := ((z + 719468) % 146097).toNat

/-- ECMA-262 `YearFromTime`, on day numbers: the civil (January-based) year. -/
def yearOfDay (z : Int) : Int :=
  (yoeOf (doeOfDay z) : Int) + 400 * eraOfDay z +
    (if monthOf (doeOfDay z) ≤ 2 then 1 else 0)

/-- ECMA-262 `MonthFromTime` (shifted to 1–12), on day numbers. -/
def monthOfDay (z : Int) : Nat := monthOf (doeOfDay z)

/-- ECMA-262 `DateFromTime`, on day numbers: day of month 1–31. -/
def domOfDay (z : Int) : Nat := domOf (doeOfDay z)

/-- Year adjustment used when converting a civil date to a day number:
January and February belong to the preceding March-based year. -/
def yAdjOf (y : Int) (m : Nat) : Int := if m ≤ 2 then y - 1 else y

/-- Day number of the first day of civil month `m` (1–12) of year `y`. -/
def monthFirstDay (y : Int) (m : Nat) : Int :=
  (yAdjOf y m) / 400 * 146097 +
    ((dby ((yAdjOf y m) % 400).toNat + dbm (mpShift m) : Nat) : Int) - 719468

theorem doeOfDay_spec (z : Int) :
    (doeOfDay z : Int) = z + 719468 - 146097 * eraOfDay z ∧ doeOfDay z < 146097 := by
  unfold doeOfDay eraOfDay
  omega

theorem yearOfDay_adj (z : Int) :
    yAdjOf (yearOfDay z) (monthOfDay z) = (yoeOf (doeOfDay z) : Int) + 400 * eraOfDay z := by
  unfold yAdjOf yearOfDay monthOfDay
  split <;> omega

/-- Converting a day number to a civil date and back is the identity. -/
theorem day_roundtrip (z : Int) :
    monthFirstDay (yearOfDay z) (monthOfDay z) + (domOfDay z : Int) - 1 = z := by
  obtain ⟨hd1, hd2⟩ := doeOfDay_spec z
  have hrt := doe_roundtrip (doeOfDay z) hd2
  have hyoe := yoeOf_le (doeOfDay z) hd2
  have hmp := mpOf_of_monthOf (doeOfDay z) hd2
  have hmr := mpOf_spec (doeOfDay z) hd2
  unfold monthFirstDay domOfDay
  rw [yearOfDay_adj z]
  have he1 : ((yoeOf (doeOfDay z) : Int) + 400 * eraOfDay z) / 400 = eraOfDay z := by
    omega
  have he2 : (((yoeOf (doeOfDay z) : Int) + 400 * eraOfDay z) % 400).toNat
      = yoeOf (doeOfDay z) := by
    omega
  rw [he1, he2]
  unfold monthOfDay at hmp ⊢
  rw [hmp]
  omega

/-! ### The `Date` accessors and constructors used by the code -/

def getUTCFullYear (t : Int) : Int := yearOfDay (dayNumber t)

/-- JavaScript `getUTCMonth` is 0-based. -/
def getUTCMonth (t : Int) : Int := (monthOfDay (dayNumber t) : Int) - 1

def getUTCDate (t : Int) : Int := (domOfDay (dayNumber t) : Int)

def getUTCHours (t : Int) : Int := timeWithinDay t / 3600000

def getUTCMinutes (t : Int) : Int := timeWithinDay t / 60000 % 60

def getUTCSeconds (t : Int) : Int := timeWithinDay t / 1000 % 60

/-- ECMA-262 `MakeDay`: month is 0-based and rolls over into the year. -/
def jsMakeDay (y mo : Int) : Int :=
  monthFirstDay (y + mo / 12) ((mo % 12).toNat + 1)

/-- `Date.UTC(y, mo, d, h, mi, s)` as a time value (milliseconds). -/
def jsDateUTC (y mo d h mi s : Int) : Int :=
  (jsMakeDay y mo + d - 1) * 86400000 + h * 3600000 + mi * 60000 + s * 1000

theorem dayNumber_spec (t : Int) :
    t = dayNumber t * 86400000 + timeWithinDay t ∧
      0 ≤ timeWithinDay t ∧ timeWithinDay t < 86400000 := by
  unfold dayNumber timeWithinDay msPerDay
  omega

/-- Rebuilding a whole-second time-of-day from its hour/minute/second fields. -/
theorem twd_recompose (w : Int) (h0 : 0 ≤ w) (h1 : w < 86400000)
    (h2 : w % 1000 = 0) :
    w / 3600000 * 3600000 + w / 60000 % 60 * 60000 +
      w / 1000 % 60 * 1000 = w := by
  omega

/-- Reading the six UTC fields of a whole-second time value and passing them
to `Date.UTC` reproduces the time value. -/
theorem jsDate_roundtrip (t : Int) (h : t % 1000 = 0) :
    jsDateUTC (getUTCFullYear t) (getUTCMonth t) (getUTCDate t)
      (getUTCHours t) (getUTCMinutes t) (getUTCSeconds t) = t := by
  obtain ⟨ht1, ht2, ht3⟩ := dayNumber_spec t
  obtain ⟨hd1, hd2⟩ := doeOfDay_spec (dayNumber t)
  have hmr := monthOf_range (doeOfDay (dayNumber t)) hd2
  have hday := day_roundtrip (dayNumber t)
  have hw : timeWithinDay t % 1000 = 0 := by
    unfold timeWithinDay msPerDay
    omega
  have htw := twd_recompose (timeWithinDay t) ht2 ht3 hw
  unfold jsDateUTC getUTCFullYear getUTCMonth getUTCDate getUTCHours
    getUTCMinutes getUTCSeconds jsMakeDay
  have hmo1 : ((monthOfDay (dayNumber t) : Int) - 1) / 12 = 0 := by
    unfold monthOfDay; omega
  have hmo2 : ((((monthOfDay (dayNumber t) : Int) - 1) % 12).toNat + 1)
      = monthOfDay (dayNumber t) := by
    unfold monthOfDay at hmr ⊢; omega
  rw [hmo1, hmo2]
  have : monthFirstDay (yearOfDay (dayNumber t) + 0) (monthOfDay (dayNumber t))
      = monthFirstDay (yearOfDay (dayNumber t)) (monthOfDay (dayNumber t)) := by
    norm_num
  rw [this]
  omega

/-- ECMA-262 `setUTCDate`: replace the day-of-month (normalizing out-of-range
values), keeping the year, month and time of day. -/
def jsSetUTCDate (t d : Int) : Int :=
  (jsMakeDay (getUTCFullYear t) (getUTCMonth t) + d - 1) * 86400000 + timeWithinDay t

/-- `setUTCDate(getUTCDate() + n)` shifts a time value by exactly `n` calendar
days, i.e. `n * 86400000` milliseconds (UTC has no leap seconds in the
ECMAScript time model, so these agree even across month boundaries and leap
days). -/
theorem jsSetUTCDate_add (t n : Int) :
    jsSetUTCDate t (getUTCDate t + n) = t + n * 86400000 := by
  obtain ⟨ht1, ht2, ht3⟩ := dayNumber_spec t
  obtain ⟨hd1, hd2⟩ := doeOfDay_spec (dayNumber t)
  have hmr := monthOf_range (doeOfDay (dayNumber t)) hd2
  have hday := day_roundtrip (dayNumber t)
  unfold jsSetUTCDate getUTCDate getUTCFullYear getUTCMonth jsMakeDay
  have hmo1 : ((monthOfDay (dayNumber t) : Int) - 1) / 12 = 0 := by
    unfold monthOfDay; omega
  have hmo2 : ((((monthOfDay (dayNumber t) : Int) - 1) % 12).toNat + 1)
      = monthOfDay (dayNumber t) := by
    unfold monthOfDay at hmr ⊢; omega
  rw [hmo1, hmo2]
  have : monthFirstDay (yearOfDay (dayNumber t) + 0) (monthOfDay (dayNumber t))
      = monthFirstDay (yearOfDay (dayNumber t)) (monthOfDay (dayNumber t)) := by
    norm_num
  rw [this]
  omega

/-! ## JavaScript strings

JavaScript strings are modelled as `List Char` (all strings handled by the
tool are ASCII).  Each embedded function mirrors the corresponding
`String.prototype` / global function. -/

/-- One decimal digit character. -/
def digitChar (n : Nat) : Char := Char.ofNat (48 + n)

/-- Decimal digit printer, fuel-based (fuel ≥ number of digits suffices). -/
def natDigitsAux : Nat → Nat → List Char → List Char
  | 0, _, acc => acc
  | fuel + 1, n, acc =>
    if n < 10 then digitChar n :: acc
    else natDigitsAux fuel (n / 10) (digitChar (n % 10) :: acc)

/-- JavaScript number-to-string for a nonnegative integer. -/
def natToChars (n : Nat) : List Char := natDigitsAux (n + 1) n []

/-- JavaScript number-to-string (template-literal / `String(...)` coercion)
for an integer value. -/
def intToChars (i : Int) : List Char :=
  if i < 0 then '-' :: natToChars i.natAbs else natToChars i.toNat

/-- `String.prototype.padStart(w, c)` with a single pad character. -/
def padStart (w : Nat) (c : Char) (s : List Char) : List Char :=
  List.replicate (w - s.length) c ++ s

/-- `String.prototype.split(sep)` with a single-character separator. -/
def splitChar (sep : Char) : List Char → List (List Char)
  | [] => [[]]
  | c :: cs =>
    match splitChar sep cs with
    | [] => [[]]
    | h :: t => if c = sep then [] :: h :: t else (c :: h) :: t

/-- `Array.prototype.join(sep)` with a single-character separator. -/
def joinChar (sep : Char) (l : List (List Char)) : List Char :=
  List.intercalate [sep] l

/-- `String.prototype.substring(a, b)` (indices clamped and swapped). -/
def jsSubstring (s : List Char) (a b : Nat) : List Char :=
  (s.take (max a b)).drop (min a b)

/-- A decimal digit character test. -/
def isDigitChar (c : Char) : Bool := 48 ≤ c.toNat && c.toNat ≤ 57

/-- Numeric value of a digit string (most significant first). -/
def digitsVal (l : List Char) : Nat :=
  l.foldl (fun a c => a * 10 + (c.toNat - 48)) 0

/-- Characters skipped by `parseInt` before the number (StrWhiteSpace). -/
def isJsSpace (c : Char) : Bool :=
  c = ' ' || c = '\t' || c = '\n' || c = '\r'

/-- Global `parseInt(s, 10)`: skip leading whitespace, optional sign, then the
longest digit run; `none` models `NaN` (no digits). -/
def jsParseInt (s : List Char) : Option Int :=
  let s1 := s.dropWhile isJsSpace
  match s1 with
  | '-' :: r =>
    let ds := r.takeWhile isDigitChar
    if ds.isEmpty then none else some (-(digitsVal ds : Int))
  | '+' :: r =>
    let ds := r.takeWhile isDigitChar
    if ds.isEmpty then none else some (digitsVal ds : Int)
  | r =>
    let ds := r.takeWhile isDigitChar
    if ds.isEmpty then none else some (digitsVal ds : Int)

/-! ### Lemmas about the string primitives -/

theorem splitChar_ne_nil (sep : Char) (l : List Char) : splitChar sep l ≠ [] := by
  cases l with
  | nil => simp [splitChar]
  | cons c cs =>
    simp only [splitChar]
    rcases h : splitChar sep cs with _ | ⟨h1, t1⟩
    · simp
    · by_cases hc : c = sep
      · simp [hc]
      · simp [hc]

theorem splitChar_length_pos (sep : Char) (l : List Char) :
    1 ≤ (splitChar sep l).length := by
  have := splitChar_ne_nil sep l
  cases h : splitChar sep l with
  | nil => exact absurd h this
  | cons a b => simp

/-- `join(sep)` undoes `split(sep)`. -/
theorem joinChar_splitChar (sep : Char) (l : List Char) :
    joinChar sep (splitChar sep l) = l := by
  induction l with
  | nil => simp [splitChar, joinChar, List.intercalate]
  | cons c cs ih =>
    simp only [splitChar]
    rcases h : splitChar sep cs with _ | ⟨h1, t1⟩
    · exact absurd h (splitChar_ne_nil sep cs)
    · rw [h] at ih
      simp only [h]
      by_cases hc : c = sep
      · subst hc
        simp only [if_pos rfl]
        simpa [joinChar, List.intercalate] using ih
      · rw [if_neg hc]
        cases t1 with
        | nil => simpa [joinChar, List.intercalate] using ih
        | cons x xs => simpa [joinChar, List.intercalate] using ih

/-- Splitting a separator-free segment yields that single segment. -/
theorem splitChar_no_sep (sep : Char) (a : List Char) (h : sep ∉ a) :
    splitChar sep a = [a] := by
  induction a with
  | nil => simp [splitChar]
  | cons c cs ih =>
    simp only [List.mem_cons, not_or] at h
    have hc : ¬ c = sep := fun hc => h.1 hc.symm
    simp only [splitChar, ih h.2, if_neg hc]

/-- Splitting at the first separator after a separator-free segment. -/
theorem splitChar_append_sep (sep : Char) (a b : List Char) (h : sep ∉ a) :
    splitChar sep (a ++ sep :: b) = a :: splitChar sep b := by
  induction a with
  | nil =>
    simp only [List.nil_append, splitChar]
    rcases hb : splitChar sep b with _ | ⟨h1, t1⟩
    · exact absurd hb (splitChar_ne_nil sep b)
    · simp
  | cons c cs ih =>
    simp only [List.mem_cons, not_or] at h
    have hc : ¬ c = sep := fun hc => h.1 hc.symm
    simp only [List.cons_append, splitChar, List.append_eq, ih h.2, if_neg hc]

/-! ### Lemmas about decimal printing and parsing -/

theorem digitChar_toNat (k : Nat) (h : k ≤ 9) : (digitChar k).toNat = 48 + k := by
  interval_cases k <;> decide

theorem isDigitChar_digitChar (k : Nat) (h : k ≤ 9) :
    isDigitChar (digitChar k) = true := by
  interval_cases k <;> decide

theorem digitChar_ne_underscore (k : Nat) (h : k ≤ 9) : digitChar k ≠ '_' := by
  interval_cases k <;> decide

theorem natDigitsAux_small (fuel n : Nat) (acc : List Char) (h : n < 10)
    (hf : 1 ≤ fuel) : natDigitsAux fuel n acc = digitChar n :: acc := by
  cases fuel with
  | zero => omega
  | succ f => simp [natDigitsAux, h]

theorem natDigitsAux_big (fuel n : Nat) (acc : List Char) (h : 10 ≤ n)
    (hf : 1 ≤ fuel) :
    natDigitsAux fuel n acc
      = natDigitsAux (fuel - 1) (n / 10) (digitChar (n % 10) :: acc) := by
  cases fuel with
  | zero => omega
  | succ f =>
    have : ¬ n < 10 := by omega
    simp [natDigitsAux, this]

theorem natToChars_lt10 (n : Nat) (h : n < 10) : natToChars n = [digitChar n] := by
  unfold natToChars
  rw [natDigitsAux_small (n + 1) n [] h (by omega)]

theorem natToChars_lt100 (n : Nat) (h1 : 10 ≤ n) (h2 : n < 100) :
    natToChars n = [digitChar (n / 10), digitChar (n % 10)] := by
  unfold natToChars
  rw [natDigitsAux_big (n + 1) n [] h1 (by omega),
    natDigitsAux_small (n + 1 - 1) (n / 10) _ (by omega) (by omega)]

theorem natToChars_4digit (n : Nat) (h1 : 1000 ≤ n) (h2 : n ≤ 9999) :
    natToChars n = [digitChar (n / 1000), digitChar (n / 100 % 10),
      digitChar (n / 10 % 10), digitChar (n % 10)] := by
  unfold natToChars
  rw [natDigitsAux_big (n + 1) n [] (by omega) (by omega),
    natDigitsAux_big (n + 1 - 1) (n / 10) _ (by omega) (by omega),
    natDigitsAux_big (n + 1 - 1 - 1) (n / 10 / 10) _ (by omega) (by omega),
    natDigitsAux_small _ (n / 10 / 10 / 10) _ (by omega) (by omega)]
  have e1 : n / 10 / 10 = n / 100 := by omega
  rw [e1]
  have e2 : n / 100 / 10 = n / 1000 := by omega
  rw [e2]

/-- Two-character zero-padded rendering of a value below 100. -/
theorem pad2_eq (m : Nat) (h : m < 100) :
    padStart 2 '0' (natToChars m) = [digitChar (m / 10), digitChar (m % 10)] := by
  by_cases h10 : m < 10
  · rw [natToChars_lt10 m h10]
    have : m / 10 = 0 := by omega
    have : digitChar (m / 10) = '0' := by rw [this]; decide
    rw [padStart, this]
    have : m % 10 = m := by omega
    simp [this, List.replicate]
  · rw [natToChars_lt100 m (by omega) h]
    simp [padStart, List.replicate]

theorem digit_not_space (c : Char) (hc : isDigitChar c = true) :
    isJsSpace c = false := by
  simp only [isDigitChar, Bool.and_eq_true, decide_eq_true_eq] at hc
  have h1 : ¬ c = ' ' := by intro h; subst h; exact absurd hc (by decide)
  have h2 : ¬ c = '\t' := by intro h; subst h; exact absurd hc (by decide)
  have h3 : ¬ c = '\n' := by intro h; subst h; exact absurd hc (by decide)
  have h4 : ¬ c = '\r' := by intro h; subst h; exact absurd hc (by decide)
  simp [isJsSpace, h1, h2, h3, h4]

/-- `parseInt` on a nonempty all-digit string returns its decimal value. -/
theorem jsParseInt_digits (l : List Char) (h1 : l ≠ [])
    (h2 : l.all isDigitChar = true) :
    jsParseInt l = some (digitsVal l : Int) := by
  cases l with
  | nil => exact absurd rfl h1
  | cons c cs =>
    simp only [List.all_cons, Bool.and_eq_true] at h2
    have hdrop : (c :: cs).dropWhile isJsSpace = c :: cs := by
      simp [List.dropWhile, digit_not_space c h2.1]
    have htake : (c :: cs).takeWhile isDigitChar = c :: cs := by
      rw [List.takeWhile_eq_self_iff]
      intro x hx
      rcases List.mem_cons.mp hx with hx | hx
      · subst hx; exact h2.1
      · exact List.all_eq_true.mp h2.2 x hx
    have hcm : ¬ c = '-' := by
      intro h; subst h
      simp only [isDigitChar, Bool.and_eq_true, decide_eq_true_eq] at h2
      exact absurd h2.1 (by decide)
    have hcp : ¬ c = '+' := by
      intro h; subst h
      simp only [isDigitChar, Bool.and_eq_true, decide_eq_true_eq] at h2
      exact absurd h2.1 (by decide)
    unfold jsParseInt
    simp only [hdrop]
    split
    · rename_i r heq
      injection heq with e1 e2
      exact absurd e1 hcm
    · rename_i r heq
      injection heq with e1 e2
      exact absurd e1 hcp
    · simp [htake]

/-! ## The identifier codec

`constants.ts`, `utils.ts` (`formatBackupTimestamp`,
`generateBackupDatasetName`) and the per-dataset decoding logic of
`ListBackupsService.listBackups` (list-backups.ts). -/

/-- `constants.ts` : `BACKUP_DATASET_PREFIX = 'zzz_backup_'`. -/
def backupDatasetPrefixStr : List Char :=
  ['z', 'z', 'z', '_', 'b', 'a', 'c', 'k', 'u', 'p', '_']

/-- `utils.ts` `formatBackupTimestamp`: the UTC pattern
`yyyyMMdd_hhmmss` of a time value. -/
def formatBackupTimestamp (date : Int) : List Char :=
  intToChars (getUTCFullYear date)
    ++ padStart 2 '0' (intToChars (getUTCMonth date + 1))
    ++ padStart 2 '0' (intToChars (getUTCDate date))
    ++ '_' :: (padStart 2 '0' (intToChars (getUTCHours date))
    ++ padStart 2 '0' (intToChars (getUTCMinutes date))
    ++ padStart 2 '0' (intToChars (getUTCSeconds date)))

/-- `utils.ts` `generateBackupDatasetName`:
`zzz_backup_yyyyMMdd_hhmmss_{source_dataset}`. -/
def generateBackupDatasetName (sourceDatasetId : List Char) (timestamp : Int) :
    List Char :=
  backupDatasetPrefixStr ++ formatBackupTimestamp timestamp ++ '_' :: sourceDatasetId

/-- `list-backups.ts` `BackupInfo`. -/
structure BackupInfo where
  backupDatasetId : List Char
  sourceDatasetId : List Char
  timestamp : Int
deriving Repr, DecidableEq

/-- The per-dataset decoding logic of `ListBackupsService.listBackups`
(the body of its `for` loop): recognize a backup dataset name and extract the
source dataset and instant; `none` models `continue` (the name is silently
skipped).  `Date.UTC` applied to the parsed fields cannot overflow the
ECMAScript time range (each field comes from at most 8 characters, so the
resulting time value is far below the 8.64e15 clip), hence the `isNaN` check
in the source corresponds exactly to a failed `parseInt`. -/
def decodeBackupDatasetName (datasetId : List Char) : Option BackupInfo :=
  if backupDatasetPrefixStr.isPrefixOf datasetId then
    let parts := splitChar '_' datasetId
    if parts.length < 5 then none
    else
      let timestampPart := parts.getD 2 [] ++ '_' :: parts.getD 3 []
      let sourceDatasetId := joinChar '_' (parts.drop 4)
      match splitChar '_' timestampPart with
      | datePart :: timePart :: _ =>
        if datePart.length = 8 ∧ timePart.length = 6 then
          match jsParseInt (jsSubstring datePart 0 4),
              jsParseInt (jsSubstring datePart 4 6),
              jsParseInt (jsSubstring datePart 6 8),
              jsParseInt (jsSubstring timePart 0 2),
              jsParseInt (jsSubstring timePart 2 4),
              jsParseInt (jsSubstring timePart 4 6) with
          | some year, some month, some day, some hours, some minutes, some seconds =>
            some ⟨datasetId, sourceDatasetId,
              jsDateUTC year (month - 1) day hours minutes seconds⟩
          | _, _, _, _, _, _ => none
        else none
      | _ => none
  else none

/-- Stable insertion into a list sorted by timestamp descending (models the
behaviour of `Array.prototype.sort` with comparator `b.timestamp - a.timestamp`,
which is stable and orders newest first). -/
def insertByTimestampDesc (b : BackupInfo) : List BackupInfo → List BackupInfo
  | [] => [b]
  | x :: xs =>
    if x.timestamp < b.timestamp then b :: x :: xs
    else x :: insertByTimestampDesc b xs

/-- Sort newest-first (stable). -/
def sortByTimestampDesc (l : List BackupInfo) : List BackupInfo :=
  l.foldr insertByTimestampDesc []

/-- `ListBackupsService.listBackups` as a function of the dataset names
returned by `getDatasets()`: decode each name (skipping the ones that do not
decode) and sort the results newest-first. -/
def listBackups (allDatasets : List (List Char)) : List BackupInfo :=
  sortByTimestampDesc (allDatasets.filterMap decodeBackupDatasetName)

/-! ### Field ranges and the shape of the formatted timestamp -/

theorem getUTCMonth_range (t : Int) : 0 ≤ getUTCMonth t ∧ getUTCMonth t ≤ 11 := by
  have h := monthOf_range (doeOfDay (dayNumber t)) (doeOfDay_spec (dayNumber t)).2
  unfold getUTCMonth monthOfDay
  omega

theorem getUTCDate_range (t : Int) : 1 ≤ getUTCDate t ∧ getUTCDate t ≤ 31 := by
  have h := (mpOf_spec (doeOfDay (dayNumber t)) (doeOfDay_spec (dayNumber t)).2).2.2.2
  unfold getUTCDate domOfDay
  omega

theorem getUTCHours_range (t : Int) : 0 ≤ getUTCHours t ∧ getUTCHours t ≤ 23 := by
  have h := dayNumber_spec t
  unfold getUTCHours
  omega

theorem getUTCMinutes_range (t : Int) : 0 ≤ getUTCMinutes t ∧ getUTCMinutes t ≤ 59 := by
  have h := dayNumber_spec t
  unfold getUTCMinutes
  omega

theorem getUTCSeconds_range (t : Int) : 0 ≤ getUTCSeconds t ∧ getUTCSeconds t ≤ 59 := by
  have h := dayNumber_spec t
  unfold getUTCSeconds
  omega

/-- The year field of a time value, as a natural number. -/
def yearN (t : Int) : Nat := (getUTCFullYear t).toNat

/-- The (1-based) month field of a time value, as a natural number. -/
def monthN (t : Int) : Nat := (getUTCMonth t + 1).toNat

def dayN (t : Int) : Nat := (getUTCDate t).toNat
def hourN (t : Int) : Nat := (getUTCHours t).toNat
def minuteN (t : Int) : Nat := (getUTCMinutes t).toNat
def secondN (t : Int) : Nat := (getUTCSeconds t).toNat

/-- Two-character zero-padded decimal rendering. -/
def twoDigits (n : Nat) : List Char := [digitChar (n / 10), digitChar (n % 10)]

/-- Four-character decimal rendering. -/
def fourDigits (n : Nat) : List Char :=
  [digitChar (n / 1000), digitChar (n / 100 % 10), digitChar (n / 10 % 10),
    digitChar (n % 10)]

theorem intToChars_nonneg (i : Int) (h : 0 ≤ i) :
    intToChars i = natToChars i.toNat := by
  unfold intToChars
  rw [if_neg (by omega)]

/-- For a time value whose year has four digits, `formatBackupTimestamp`
renders the `yyyyMMdd_hhmmss` pattern. -/
theorem formatBackupTimestamp_eq (t : Int) (hy1 : 1000 ≤ getUTCFullYear t)
    (hy2 : getUTCFullYear t ≤ 9999) :
    formatBackupTimestamp t =
      (fourDigits (yearN t) ++ (twoDigits (monthN t) ++ twoDigits (dayN t)))
        ++ '_' :: (twoDigits (hourN t) ++ (twoDigits (minuteN t) ++ twoDigits (secondN t))) := by
  have hm := getUTCMonth_range t
  have hd := getUTCDate_range t
  have hh := getUTCHours_range t
  have hmi := getUTCMinutes_range t
  have hs := getUTCSeconds_range t
  unfold formatBackupTimestamp
  rw [intToChars_nonneg _ (by omega), intToChars_nonneg _ (by omega),
    intToChars_nonneg _ (by omega), intToChars_nonneg _ (by omega),
    intToChars_nonneg _ (by omega), intToChars_nonneg _ (by omega)]
  rw [natToChars_4digit _ (by omega) (by omega)]
  rw [pad2_eq _ (by omega), pad2_eq _ (by omega), pad2_eq _ (by omega),
    pad2_eq _ (by omega), pad2_eq _ (by omega)]
  unfold fourDigits twoDigits yearN monthN dayN hourN minuteN secondN
  simp [List.append_assoc]

theorem twoDigits_all (n : Nat) (h : n ≤ 99) :
    (twoDigits n).all isDigitChar = true := by
  simp [twoDigits, List.all,
    isDigitChar_digitChar (n / 10) (by omega),
    isDigitChar_digitChar (n % 10) (by omega)]

theorem fourDigits_all (n : Nat) (h : n ≤ 9999) :
    (fourDigits n).all isDigitChar = true := by
  simp [fourDigits, List.all,
    isDigitChar_digitChar (n / 1000) (by omega),
    isDigitChar_digitChar (n / 100 % 10) (by omega),
    isDigitChar_digitChar (n / 10 % 10) (by omega),
    isDigitChar_digitChar (n % 10) (by omega)]

theorem not_underscore_mem (l : List Char) (h : l.all isDigitChar = true) :
    ('_' : Char) ∉ l := by
  intro hmem
  have := List.all_eq_true.mp h _ hmem
  exact absurd this (by decide)

theorem isPrefixOf_append_self (p r : List Char) :
    p.isPrefixOf (p ++ r) = true := by
  induction p with
  | nil => simp [List.isPrefixOf]
  | cons c cs ih => simp [List.isPrefixOf, ih]

theorem jsSubstring_first (a b : List Char) (n : Nat) (h : a.length = n) :
    jsSubstring (a ++ b) 0 n = a := by
  subst h
  simp [jsSubstring, List.take_left]

theorem jsSubstring_mid (a b c : List Char) (m n : Nat) (ha : a.length = m)
    (hn : a.length + b.length = n) :
    jsSubstring (a ++ (b ++ c)) m n = b := by
  subst ha
  rw [← List.append_assoc]
  have h1 : max a.length n = n := by omega
  have h2 : min a.length n = a.length := by omega
  rw [jsSubstring, h1, h2]
  rw [List.take_left' (by simp [hn] : (a ++ b).length = n)]
  exact List.drop_left a b

theorem jsSubstring_last (a b : List Char) (m n : Nat) (ha : a.length = m)
    (hn : a.length + b.length = n) :
    jsSubstring (a ++ b) m n = b := by
  subst ha
  have h1 : max a.length n = n := by omega
  have h2 : min a.length n = a.length := by omega
  rw [jsSubstring, h1, h2]
  rw [List.take_of_length_le (by simp; omega)]
  exact List.drop_left a b

theorem digitsVal_twoDigits (n : Nat) (h : n ≤ 99) :
    digitsVal (twoDigits n) = n := by
  simp only [digitsVal, twoDigits, List.foldl]
  rw [digitChar_toNat _ (by omega), digitChar_toNat _ (by omega)]
  omega

theorem digitsVal_fourDigits (n : Nat) (h : n ≤ 9999) :
    digitsVal (fourDigits n) = n := by
  simp only [digitsVal, fourDigits, List.foldl]
  rw [digitChar_toNat _ (by omega), digitChar_toNat _ (by omega),
    digitChar_toNat _ (by omega), digitChar_toNat _ (by omega)]
  omega

theorem decode_encode_aux (src : List Char) (t : Int)
    (ht : t % 1000 = 0) (hy1 : 1000 ≤ getUTCFullYear t)
    (hy2 : getUTCFullYear t ≤ 9999) :
    decodeBackupDatasetName (generateBackupDatasetName src t) =
      some ⟨generateBackupDatasetName src t, src, t⟩ := by
  have hm := getUTCMonth_range t
  have hd := getUTCDate_range t
  have hh := getUTCHours_range t
  have hmiR := getUTCMinutes_range t
  have hsR := getUTCSeconds_range t
  have hyN : 1000 ≤ yearN t ∧ yearN t ≤ 9999 := by unfold yearN; omega
  have hmoN : 1 ≤ monthN t ∧ monthN t ≤ 12 := by unfold monthN; omega
  have hdN : 1 ≤ dayN t ∧ dayN t ≤ 31 := by unfold dayN; omega
  have hhN : hourN t ≤ 23 := by unfold hourN; omega
  have hminN : minuteN t ≤ 59 := by unfold minuteN; omega
  have hsecN : secondN t ≤ 59 := by unfold secondN; omega
  have hYd := fourDigits_all (yearN t) (by omega)
  have hMod := twoDigits_all (monthN t) (by omega)
  have hDad := twoDigits_all (dayN t) (by omega)
  have hHod := twoDigits_all (hourN t) (by omega)
  have hMid := twoDigits_all (minuteN t) (by omega)
  have hSed := twoDigits_all (secondN t) (by omega)
  have hdate8 : ((fourDigits (yearN t) ++ (twoDigits (monthN t) ++ twoDigits (dayN t))).all
      isDigitChar) = true := by
    simp only [List.all_append, Bool.and_eq_true]
    exact ⟨hYd, hMod, hDad⟩
  have htime6 : ((twoDigits (hourN t) ++ (twoDigits (minuteN t) ++ twoDigits (secondN t))).all
      isDigitChar) = true := by
    simp only [List.all_append, Bool.and_eq_true]
    exact ⟨hHod, hMid, hSed⟩
  have hdateNE := not_underscore_mem _ hdate8
  have htimeNE := not_underscore_mem _ htime6
  have hdate8len : (fourDigits (yearN t) ++ (twoDigits (monthN t) ++ twoDigits (dayN t))).length = 8 := by
    simp [fourDigits, twoDigits]
  have htime6len : (twoDigits (hourN t) ++ (twoDigits (minuteN t) ++ twoDigits (secondN t))).length = 6 := by
    simp [twoDigits]
  have hname : generateBackupDatasetName src t
      = ['z', 'z', 'z'] ++ '_' :: (['b', 'a', 'c', 'k', 'u', 'p'] ++ '_' ::
          ((fourDigits (yearN t) ++ (twoDigits (monthN t) ++ twoDigits (dayN t))) ++ '_' ::
            ((twoDigits (hourN t) ++ (twoDigits (minuteN t) ++ twoDigits (secondN t))) ++ '_' :: src))) := by
    unfold generateBackupDatasetName backupDatasetPrefixStr
    rw [formatBackupTimestamp_eq t hy1 hy2]
    simp [List.append_assoc]
  have hpre : backupDatasetPrefixStr.isPrefixOf (generateBackupDatasetName src t) = true := by
    unfold generateBackupDatasetName
    rw [List.append_assoc]
    exact isPrefixOf_append_self _ _
  have hsplit : splitChar '_' (generateBackupDatasetName src t)
      = ['z', 'z', 'z'] :: ['b', 'a', 'c', 'k', 'u', 'p'] ::
          (fourDigits (yearN t) ++ (twoDigits (monthN t) ++ twoDigits (dayN t))) ::
          (twoDigits (hourN t) ++ (twoDigits (minuteN t) ++ twoDigits (secondN t))) ::
          splitChar '_' src := by
    rw [hname]
    rw [splitChar_append_sep _ _ _ (by decide)]
    rw [splitChar_append_sep _ _ _ (by decide)]
    rw [splitChar_append_sep _ _ _ hdateNE]
    rw [splitChar_append_sep _ _ _ htimeNE]
  have hsplitlen := splitChar_length_pos '_' src
  unfold decodeBackupDatasetName
  rw [if_pos hpre]
  simp only [hsplit]
  rw [if_neg (by simp; omega)]
  simp only [List.getD, List.get?, List.drop, Option.getD_some]
  have hts1 := splitChar_append_sep '_'
    (fourDigits (yearN t) ++ (twoDigits (monthN t) ++ twoDigits (dayN t)))
    (twoDigits (hourN t) ++ (twoDigits (minuteN t) ++ twoDigits (secondN t))) hdateNE
  have hts2 := splitChar_no_sep '_'
    (twoDigits (hourN t) ++ (twoDigits (minuteN t) ++ twoDigits (secondN t))) htimeNE
  simp only [hts1, hts2]
  rw [if_pos ⟨hdate8len, htime6len⟩]
  rw [jsSubstring_first _ _ 4 (by simp [fourDigits])]
  rw [jsSubstring_mid (fourDigits (yearN t)) (twoDigits (monthN t)) (twoDigits (dayN t)) 4 6
    (by simp [fourDigits]) (by simp [fourDigits, twoDigits])]
  rw [show fourDigits (yearN t) ++ (twoDigits (monthN t) ++ twoDigits (dayN t))
      = (fourDigits (yearN t) ++ twoDigits (monthN t)) ++ twoDigits (dayN t) from
      (List.append_assoc _ _ _).symm]
  rw [jsSubstring_last _ _ 6 8 (by simp [fourDigits, twoDigits])
    (by simp [fourDigits, twoDigits])]
  rw [jsSubstring_first _ _ 2 (by simp [twoDigits])]
  rw [jsSubstring_mid (twoDigits (hourN t)) (twoDigits (minuteN t)) (twoDigits (secondN t)) 2 4
    (by simp [twoDigits]) (by simp [twoDigits])]
  rw [show twoDigits (hourN t) ++ (twoDigits (minuteN t) ++ twoDigits (secondN t))
      = (twoDigits (hourN t) ++ twoDigits (minuteN t)) ++ twoDigits (secondN t) from
      (List.append_assoc _ _ _).symm]
  rw [jsSubstring_last _ _ 4 6 (by simp [twoDigits]) (by simp [twoDigits])]
  rw [jsParseInt_digits _ (by simp [fourDigits]) hYd,
    jsParseInt_digits _ (by simp [twoDigits]) hMod,
    jsParseInt_digits _ (by simp [twoDigits]) hDad,
    jsParseInt_digits _ (by simp [twoDigits]) hHod,
    jsParseInt_digits _ (by simp [twoDigits]) hMid,
    jsParseInt_digits _ (by simp [twoDigits]) hSed]
  rw [digitsVal_fourDigits _ (by omega), digitsVal_twoDigits _ (by omega),
    digitsVal_twoDigits _ (by omega), digitsVal_twoDigits _ (by omega),
    digitsVal_twoDigits _ (by omega), digitsVal_twoDigits _ (by omega)]
  have e1 : ((yearN t : Nat) : Int) = getUTCFullYear t := by unfold yearN; omega
  have e2 : ((monthN t : Nat) : Int) - 1 = getUTCMonth t := by unfold monthN; omega
  have e3 : ((dayN t : Nat) : Int) = getUTCDate t := by unfold dayN; omega
  have e4 : ((hourN t : Nat) : Int) = getUTCHours t := by unfold hourN; omega
  have e5 : ((minuteN t : Nat) : Int) = getUTCMinutes t := by unfold minuteN; omega
  have e6 : ((secondN t : Nat) : Int) = getUTCSeconds t := by unfold secondN; omega
  have efinal : jsDateUTC ((yearN t : Nat) : Int) (((monthN t : Nat) : Int) - 1)
      ((dayN t : Nat) : Int) ((hourN t : Nat) : Int) ((minuteN t : Nat) : Int)
      ((secondN t : Nat) : Int) = t := by
    rw [e1, e2, e3, e4, e5, e6]
    exact jsDate_roundtrip t ht
  simp only [joinChar_splitChar, efinal]

/-- C1. Codec round-trip: for every valid source id and instant (a whole-second
time value whose UTC year has four digits — the prefix is the fixed
`zzz_backup_`), decoding the name produced by `generateBackupDatasetName`
yields exactly the original source id and instant; in particular the instant
2024-12-15T14:30:22Z (time value 1734273022000) with source `analytics`
encodes to `zzz_backup_20241215_143022_analytics` and decodes back to it. -/
theorem C1_codec_roundtrip :
    (∀ (src : List Char) (t : Int), t % 1000 = 0 → 1000 ≤ getUTCFullYear t →
      getUTCFullYear t ≤ 9999 →
      decodeBackupDatasetName (generateBackupDatasetName src t) =
        some ⟨generateBackupDatasetName src t, src, t⟩) ∧
    generateBackupDatasetName ( "analytics".toList) 1734273022000 =
      ( "zzz_backup_20241215_143022_analytics".toList) ∧
    decodeBackupDatasetName ( "zzz_backup_20241215_143022_analytics".toList) =
      some ⟨ "zzz_backup_20241215_143022_analytics".toList, "analytics".toList,
        1734273022000⟩ := by
  refine ⟨decode_encode_aux, by decide, by decide⟩

/-- Witness for C1: the universally quantified round-trip, applied at the
concrete scenario input. -/
theorem C1_codec_roundtrip_witness :
    decodeBackupDatasetName (generateBackupDatasetName ( "analytics".toList)
        1734273022000) =
      some ⟨generateBackupDatasetName ( "analytics".toList) 1734273022000,
        "analytics".toList, 1734273022000⟩ :=
  C1_codec_roundtrip.1 ( "analytics".toList) 1734273022000 (by decide)
    (by decide) (by decide)

/-! ### General facts about decoding arbitrary names -/

/-- Segments produced by `split` never contain the separator. -/
theorem splitChar_sep_not_mem (sep : Char) (l : List Char) :
    ∀ a ∈ splitChar sep l, sep ∉ a := by
  induction l with
  | nil =>
    intro a ha
    simp [splitChar] at ha
    simp [ha]
  | cons c cs ih =>
    intro a ha
    simp only [splitChar] at ha
    rcases h : splitChar sep cs with _ | ⟨h1, t1⟩
    · exact absurd h (splitChar_ne_nil sep cs)
    · simp only [h] at ha
      rw [h] at ih
      by_cases hc : c = sep
      · rw [if_pos hc] at ha
        rcases List.mem_cons.mp ha with rfl | ha2
        · simp
        · exact ih a ha2
      · rw [if_neg hc] at ha
        rcases List.mem_cons.mp ha with rfl | ha2
        · intro hmem
          rcases List.mem_cons.mp hmem with rfl | hmem2
          · exact hc rfl
          · exact ih h1 (List.mem_cons_self h1 t1) hmem2
        · exact ih a (List.mem_cons_of_mem h1 ha2)

theorem getD_mem_of_lt (l : List (List Char)) (n : Nat) (h : n < l.length) :
    l.getD n [] ∈ l := by
  rw [List.getD_eq_getElem l [] h]
  exact List.getElem_mem h

/-- Decoding, after the prefix and segment-count guards pass, reduces to the
fixed-width field checks on the third and fourth segments. -/
theorem decode_eq_of_guards (s : List Char)
    (h1 : backupDatasetPrefixStr.isPrefixOf s = true)
    (h2 : ¬ (splitChar '_' s).length < 5) :
    decodeBackupDatasetName s =
      (if ((splitChar '_' s).getD 2 []).length = 8 ∧
          ((splitChar '_' s).getD 3 []).length = 6 then
        match jsParseInt (jsSubstring ((splitChar '_' s).getD 2 []) 0 4),
            jsParseInt (jsSubstring ((splitChar '_' s).getD 2 []) 4 6),
            jsParseInt (jsSubstring ((splitChar '_' s).getD 2 []) 6 8),
            jsParseInt (jsSubstring ((splitChar '_' s).getD 3 []) 0 2),
            jsParseInt (jsSubstring ((splitChar '_' s).getD 3 []) 2 4),
            jsParseInt (jsSubstring ((splitChar '_' s).getD 3 []) 4 6) with
        | some year, some month, some day, some hours, some minutes, some seconds =>
          some ⟨s, joinChar '_' ((splitChar '_' s).drop 4),
            jsDateUTC year (month - 1) day hours minutes seconds⟩
        | _, _, _, _, _, _ => none
      else none) := by
  have hdp : ('_' : Char) ∉ (splitChar '_' s).getD 2 [] :=
    splitChar_sep_not_mem '_' s _ (getD_mem_of_lt _ 2 (by omega))
  have htp : ('_' : Char) ∉ (splitChar '_' s).getD 3 [] :=
    splitChar_sep_not_mem '_' s _ (getD_mem_of_lt _ 3 (by omega))
  have hts1 := splitChar_append_sep '_' ((splitChar '_' s).getD 2 [])
    ((splitChar '_' s).getD 3 []) hdp
  have hts2 := splitChar_no_sep '_' ((splitChar '_' s).getD 3 []) htp
  unfold decodeBackupDatasetName
  rw [if_pos h1, if_neg h2]
  simp only [hts1, hts2]

/-- Counterexample to C2 as stated.  First: the name
`zzz_backup_20240230_123456_src` has digit segments that do not encode a
valid calendar date (February 30), yet the decode performed during
enumeration does NOT skip it: `Date.UTC` normalizes the out-of-range day,
producing 2024-03-01T12:34:56Z (time value 1709296496000).  Second: the name
`zzz_backup_2024121x_123456_src`, whose date segment is not 8 characters of
digits, is also NOT skipped: `parseInt` reads the leading digit run of the
day field (`1x` parses as 1), producing 2024-12-01T12:34:56Z
(time value 1733056496000). -/
theorem C2_counterexample :
    (decodeBackupDatasetName ( "zzz_backup_20240230_123456_src".toList) =
      some ⟨ "zzz_backup_20240230_123456_src".toList, "src".toList,
        1709296496000⟩ ∧
     getUTCMonth 1709296496000 + 1 = 3 ∧ getUTCDate 1709296496000 = 1) ∧
    decodeBackupDatasetName ( "zzz_backup_2024121x_123456_src".toList) =
      some ⟨ "zzz_backup_2024121x_123456_src".toList, "src".toList,
        1733056496000⟩ := by
  refine ⟨⟨by decide, by decide, by decide⟩, by decide⟩

/-- Decoding skips a name (with the prefix and segment-count guards passed)
as soon as any of the six fixed-width fields fails numeric parsing: the
resulting `NaN` propagates through `Date.UTC`. -/
theorem decode_none_of_parse_fail (s : List Char)
    (h2 : ¬ (splitChar '_' s).length < 5)
    (hfail :
      jsParseInt (jsSubstring ((splitChar '_' s).getD 2 []) 0 4) = none ∨
      jsParseInt (jsSubstring ((splitChar '_' s).getD 2 []) 4 6) = none ∨
      jsParseInt (jsSubstring ((splitChar '_' s).getD 2 []) 6 8) = none ∨
      jsParseInt (jsSubstring ((splitChar '_' s).getD 3 []) 0 2) = none ∨
      jsParseInt (jsSubstring ((splitChar '_' s).getD 3 []) 2 4) = none ∨
      jsParseInt (jsSubstring ((splitChar '_' s).getD 3 []) 4 6) = none) :
    decodeBackupDatasetName s = none := by
  by_cases hp : backupDatasetPrefixStr.isPrefixOf s = true
  · rw [decode_eq_of_guards s hp h2]
    split
    · rcases hq1 : jsParseInt (jsSubstring ((splitChar '_' s).getD 2 []) 0 4)
        with _ | y1
      · rfl
      · rcases hq2 : jsParseInt (jsSubstring ((splitChar '_' s).getD 2 []) 4 6)
          with _ | y2
        · rfl
        · rcases hq3 : jsParseInt (jsSubstring ((splitChar '_' s).getD 2 []) 6 8)
            with _ | y3
          · rfl
          · rcases hq4 : jsParseInt (jsSubstring ((splitChar '_' s).getD 3 []) 0 2)
              with _ | y4
            · rfl
            · rcases hq5 : jsParseInt (jsSubstring ((splitChar '_' s).getD 3 []) 2 4)
                with _ | y5
              · rfl
              · rcases hq6 : jsParseInt (jsSubstring ((splitChar '_' s).getD 3 []) 4 6)
                  with _ | y6
                · rfl
                · rcases hfail with h | h | h | h | h | h
                  · rw [hq1] at h; simp at h
                  · rw [hq2] at h; simp at h
                  · rw [hq3] at h; simp at h
                  · rw [hq4] at h; simp at h
                  · rw [hq5] at h; simp at h
                  · rw [hq6] at h; simp at h
    · rfl
  · unfold decodeBackupDatasetName
    rw [if_neg hp]

/-- C2 (amended). The decode performed during backup enumeration silently
skips (returns no result for, never an error) every name that does not start
with the backup prefix, or has fewer than 5 separator-delimited segments, or
whose two segments after the prefix are not exactly 8 and 6 characters long,
or where any of the six fixed-width fields fails numeric parsing.  But the
segments need not be 8 and 6 characters of *digits* — `parseInt` accepts a
leading digit run — and digit segments encoding out-of-range calendar
components are NOT rejected: `Date.UTC` normalizes them into a valid instant
(both shown by `C2_counterexample`). -/
theorem C2_decode_rejections :
    (∀ s : List Char, backupDatasetPrefixStr.isPrefixOf s = false →
      decodeBackupDatasetName s = none) ∧
    (∀ s : List Char, (splitChar '_' s).length < 5 →
      decodeBackupDatasetName s = none) ∧
    (∀ s : List Char, ¬ (splitChar '_' s).length < 5 →
      ¬ (((splitChar '_' s).getD 2 []).length = 8 ∧
          ((splitChar '_' s).getD 3 []).length = 6) →
      decodeBackupDatasetName s = none) ∧
    (∀ s : List Char, ¬ (splitChar '_' s).length < 5 →
      (jsParseInt (jsSubstring ((splitChar '_' s).getD 2 []) 0 4) = none ∨
       jsParseInt (jsSubstring ((splitChar '_' s).getD 2 []) 4 6) = none ∨
       jsParseInt (jsSubstring ((splitChar '_' s).getD 2 []) 6 8) = none ∨
       jsParseInt (jsSubstring ((splitChar '_' s).getD 3 []) 0 2) = none ∨
       jsParseInt (jsSubstring ((splitChar '_' s).getD 3 []) 2 4) = none ∨
       jsParseInt (jsSubstring ((splitChar '_' s).getD 3 []) 4 6) = none) →
      decodeBackupDatasetName s = none) := by
  refine ⟨?_, ?_, ?_, fun s h2 hfail => decode_none_of_parse_fail s h2 hfail⟩
  · intro s h
    unfold decodeBackupDatasetName
    rw [if_neg (by simp [h])]
  · intro s h
    unfold decodeBackupDatasetName
    by_cases hp : backupDatasetPrefixStr.isPrefixOf s = true
    · rw [if_pos hp, if_pos h]
    · rw [if_neg hp]
  · intro s h2 h3
    by_cases hp : backupDatasetPrefixStr.isPrefixOf s = true
    · rw [decode_eq_of_guards s hp h2, if_neg h3]
    · unfold decodeBackupDatasetName
      rw [if_neg hp]

/-- Witness for C2's amended rejection theorem: `some_dataset` does not start
with the backup prefix and is skipped, and `zzz_backup_abcdefgh_123456_src`,
whose year field fails numeric parsing, is skipped. -/
theorem C2_decode_rejections_witness :
    decodeBackupDatasetName ( "some_dataset".toList) = none ∧
    decodeBackupDatasetName ( "zzz_backup_abcdefgh_123456_src".toList) = none :=
  ⟨C2_decode_rejections.1 ( "some_dataset".toList) (by decide),
    C2_decode_rejections.2.2.2 ( "zzz_backup_abcdefgh_123456_src".toList)
      (by decide) (Or.inl (by decide))⟩

/-- `String.prototype.includes(pat)`: `pat` occurs contiguously in `s`. -/
def jsIncludes (s pat : List Char) : Bool :=
  match s with
  | [] => pat.isEmpty
  | _ :: rest => pat.isPrefixOf s || jsIncludes rest pat

theorem jsIncludes_of_isPrefixOf (s pat : List Char)
    (h : pat.isPrefixOf s = true) : jsIncludes s pat = true := by
  cases s with
  | nil =>
    cases pat with
    | nil => rfl
    | cons p ps => simp [List.isPrefixOf] at h
  | cons c rest => simp [jsIncludes, h]

theorem jsIncludes_append (a pat b : List Char) :
    jsIncludes (a ++ (pat ++ b)) pat = true := by
  induction a with
  | nil =>
    exact jsIncludes_of_isPrefixOf _ _ (isPrefixOf_append_self pat b)
  | cons c cs ih =>
    simp [jsIncludes, ih]

/-- `RestoreService.listBackupsForTimestamp` (restore.ts lines 40–86) as a
function of the dataset names returned by `getDatasets()`.  The inline
timestamp formatting in the source is character-for-character the body of
`formatBackupTimestamp`.  Note the membership test: `startsWith` the prefix,
`includes` the formatted timestamp as a substring, and at least five
separator-delimited segments; the name is never decoded and the recorded
timestamp is the requested one. -/
def listBackupsForTimestamp (allDatasets : List (List Char)) (timestamp : Int) :
    List BackupInfo :=
  allDatasets.filterMap (fun datasetId =>
    if backupDatasetPrefixStr.isPrefixOf datasetId then
      if jsIncludes datasetId (formatBackupTimestamp timestamp) then
        if (splitChar '_' datasetId).length < 5 then none
        else some ⟨datasetId, joinChar '_' ((splitChar '_' datasetId).drop 4),
          timestamp⟩
      else none
    else none)

/-- Counterexample to C3 as stated: resolving the backup set for
2024-12-15T14:30:22Z (time value 1734273022000) includes the container
`zzz_backup_20240101_000000_x_20241215_143022`, whose decoded instant is
2024-01-01T00:00:00Z (time value 1704067200000) — a different instant: the
code matches the formatted timestamp as a substring anywhere in the name,
not by decoded-instant equality. -/
theorem C3_counterexample :
    listBackupsForTimestamp
        [ "zzz_backup_20240101_000000_x_20241215_143022".toList] 1734273022000 =
      [⟨ "zzz_backup_20240101_000000_x_20241215_143022".toList,
        "x_20241215_143022".toList, 1734273022000⟩] ∧
    decodeBackupDatasetName
        ( "zzz_backup_20240101_000000_x_20241215_143022".toList) =
      some ⟨ "zzz_backup_20240101_000000_x_20241215_143022".toList,
        "x_20241215_143022".toList, 1704067200000⟩ ∧
    (1704067200000 : Int) ≠ 1734273022000 := by
  refine ⟨by decide, by decide, by decide⟩

/-- Split structure of a canonically generated backup dataset name. -/
theorem generateName_split (src : List Char) (t : Int)
    (hy1 : 1000 ≤ getUTCFullYear t) (hy2 : getUTCFullYear t ≤ 9999) :
    splitChar '_' (generateBackupDatasetName src t)
      = ['z', 'z', 'z'] :: ['b', 'a', 'c', 'k', 'u', 'p'] ::
          (fourDigits (yearN t) ++ (twoDigits (monthN t) ++ twoDigits (dayN t))) ::
          (twoDigits (hourN t) ++ (twoDigits (minuteN t) ++ twoDigits (secondN t))) ::
          splitChar '_' src := by
  have hm := getUTCMonth_range t
  have hd := getUTCDate_range t
  have hh := getUTCHours_range t
  have hmiR := getUTCMinutes_range t
  have hsR := getUTCSeconds_range t
  have hdate8 : ((fourDigits (yearN t) ++ (twoDigits (monthN t) ++ twoDigits (dayN t))).all
      isDigitChar) = true := by
    simp only [List.all_append, Bool.and_eq_true]
    exact ⟨fourDigits_all _ (by unfold yearN; omega),
      twoDigits_all _ (by unfold monthN; omega), twoDigits_all _ (by unfold dayN; omega)⟩
  have htime6 : ((twoDigits (hourN t) ++ (twoDigits (minuteN t) ++ twoDigits (secondN t))).all
      isDigitChar) = true := by
    simp only [List.all_append, Bool.and_eq_true]
    exact ⟨twoDigits_all _ (by unfold hourN; omega),
      twoDigits_all _ (by unfold minuteN; omega), twoDigits_all _ (by unfold secondN; omega)⟩
  have hname : generateBackupDatasetName src t
      = ['z', 'z', 'z'] ++ '_' :: (['b', 'a', 'c', 'k', 'u', 'p'] ++ '_' ::
          ((fourDigits (yearN t) ++ (twoDigits (monthN t) ++ twoDigits (dayN t))) ++ '_' ::
            ((twoDigits (hourN t) ++ (twoDigits (minuteN t) ++ twoDigits (secondN t))) ++ '_' :: src))) := by
    unfold generateBackupDatasetName backupDatasetPrefixStr
    rw [formatBackupTimestamp_eq t hy1 hy2]
    simp [List.append_assoc]
  rw [hname]
  rw [splitChar_append_sep _ _ _ (by decide)]
  rw [splitChar_append_sep _ _ _ (by decide)]
  rw [splitChar_append_sep _ _ _ (not_underscore_mem _ hdate8)]
  rw [splitChar_append_sep _ _ _ (not_underscore_mem _ htime6)]

/-- C3 (amended). Restore-set resolution matches by string, not by decoded
instant: a container is in the resolved set exactly when its name starts with
the backup prefix, contains the formatted requested instant as a substring,
and has at least five separator-delimited segments (its recorded timestamp
being the requested one and its source id the re-joined tail segments).
Every canonically encoded container for the requested instant is included,
but so can be containers whose decoded instant differs
(see `C3_counterexample`). -/
theorem C3_restore_set_resolution :
    (∀ (ds : List (List Char)) (t : Int) (b : BackupInfo),
      b ∈ listBackupsForTimestamp ds t ↔
        b.backupDatasetId ∈ ds ∧
        backupDatasetPrefixStr.isPrefixOf b.backupDatasetId = true ∧
        jsIncludes b.backupDatasetId (formatBackupTimestamp t) = true ∧
        ¬ (splitChar '_' b.backupDatasetId).length < 5 ∧
        b = ⟨b.backupDatasetId,
          joinChar '_' ((splitChar '_' b.backupDatasetId).drop 4), t⟩) ∧
    (∀ (ds : List (List Char)) (src : List Char) (t : Int),
      1000 ≤ getUTCFullYear t → getUTCFullYear t ≤ 9999 →
      generateBackupDatasetName src t ∈ ds →
      (⟨generateBackupDatasetName src t, src, t⟩ : BackupInfo) ∈
        listBackupsForTimestamp ds t) := by
  constructor
  · intro ds t b
    unfold listBackupsForTimestamp
    rw [List.mem_filterMap]
    constructor
    · rintro ⟨a, ha, hfa⟩
      split_ifs at hfa with h1 h2 h3 <;>
        first
          | (simp only [Option.some.injEq] at hfa
             subst hfa
             exact ⟨ha, h1, h2, h3, rfl⟩)
          | simp at hfa
    · rintro ⟨hmem, h1, h2, h3, hb⟩
      refine ⟨b.backupDatasetId, hmem, ?_⟩
      rw [if_pos h1, if_pos h2, if_neg h3]
      rw [hb]
  · intro ds src t hy1 hy2 hmem
    unfold listBackupsForTimestamp
    rw [List.mem_filterMap]
    refine ⟨generateBackupDatasetName src t, hmem, ?_⟩
    have hpre : backupDatasetPrefixStr.isPrefixOf (generateBackupDatasetName src t) = true := by
      unfold generateBackupDatasetName
      rw [List.append_assoc]
      exact isPrefixOf_append_self _ _
    have hinc : jsIncludes (generateBackupDatasetName src t)
        (formatBackupTimestamp t) = true := by
      unfold generateBackupDatasetName
      rw [List.append_assoc]
      exact jsIncludes_append _ _ _
    have hsplit := generateName_split src t hy1 hy2
    have hlen : ¬ (splitChar '_' (generateBackupDatasetName src t)).length < 5 := by
      rw [hsplit]
      have := splitChar_length_pos '_' src
      simp
      omega
    rw [if_pos hpre, if_pos hinc, if_neg hlen]
    rw [hsplit]
    simp only [List.drop, joinChar_splitChar]

/-- Witness for C3's amended theorem: the canonical container for the scenario
instant is found by restore-set resolution. -/
theorem C3_restore_set_resolution_witness :
    (⟨generateBackupDatasetName ( "analytics".toList) 1734273022000,
        "analytics".toList, 1734273022000⟩ : BackupInfo) ∈
      listBackupsForTimestamp
        [generateBackupDatasetName ( "analytics".toList) 1734273022000]
        1734273022000 :=
  C3_restore_set_resolution.2
    [generateBackupDatasetName ( "analytics".toList) 1734273022000]
    ( "analytics".toList) 1734273022000 (by decide) (by decide)
    (List.mem_singleton.mpr rfl)

/-! ## The backup service (backup.ts, types.ts, utils.ts)

The remote warehouse is abstracted as an environment of pure oracles: which
datasets exist, their metadata, their tables, and the outcome of each
snapshot-creation query.  Remote failures surface as `Except.error` (a thrown
error) or as per-operation `Option` error messages, mirroring where the
source catches. -/

/-- `types.ts` `DatasetInfo` (the always-empty `tables` field is omitted). -/
structure DatasetInfo where
  datasetId : List Char
  location : Option (List Char)
deriving Repr, DecidableEq

/-- A table with its metadata type (`TABLE`, `VIEW`, `SNAPSHOT`, …). -/
structure TableMeta where
  tableId : List Char
  type : List Char
deriving Repr, DecidableEq

/-- The warehouse oracles used by `BackupService`. -/
structure BackupEnv where
  /-- names returned by `getDatasets()` -/
  allDatasets : List (List Char)
  /-- `dataset.exists()` -/
  datasetExists : List Char → Bool
  /-- `dataset.getMetadata()`: an error (thrown) or the `location` field -/
  getMetadataLocation : List Char → Except (List Char) (Option (List Char))
  /-- `getTables()` + per-table metadata of a dataset -/
  tables : List Char → List TableMeta
  /-- `dataset.exists()` for the backup dataset (collision check) -/
  backupDatasetExists : List Char → Bool
  /-- outcome of the `CREATE SNAPSHOT TABLE` job for (sourceDataset, table):
  `none` = success, `some msg` = the thrown error's message -/
  snapshotResult : List Char → List Char → Option (List Char)

/-- `BackupService.listDatasets`, explicit-IDs branch: a dataset that does
not exist is skipped with a warning; a metadata error fails the whole call. -/
def listDatasetsExplicit (env : BackupEnv) : List (List Char) →
    Except (List Char) (List DatasetInfo)
  | [] => .ok []
  | id :: rest =>
    if env.datasetExists id then
      match env.getMetadataLocation id with
      | .error e => .error e
      | .ok loc =>
        match listDatasetsExplicit env rest with
        | .error e => .error e
        | .ok r => .ok (⟨id, loc⟩ :: r)
    else listDatasetsExplicit env rest

/-- `BackupService.listDatasets`, list-all branch: datasets whose name starts
with the backup prefix are excluded. -/
def listDatasetsAll (env : BackupEnv) : List (List Char) →
    Except (List Char) (List DatasetInfo)
  | [] => .ok []
  | id :: rest =>
    if backupDatasetPrefixStr.isPrefixOf id then listDatasetsAll env rest
    else
      match env.getMetadataLocation id with
      | .error e => .error e
      | .ok loc =>
        match listDatasetsAll env rest with
        | .error e => .error e
        | .ok r => .ok (⟨id, loc⟩ :: r)

/-- `BackupService.listDatasets` (backup.ts lines 30–75). -/
def listDatasets (env : BackupEnv) (datasets : Option (List (List Char))) :
    Except (List Char) (List DatasetInfo) :=
  match datasets with
  | some ds =>
    if ds.length > 0 then listDatasetsExplicit env ds
    else listDatasetsAll env env.allDatasets
  | none => listDatasetsAll env env.allDatasets

/-- Counterexample to C4 as stated: with explicit IDs `[a, missing]` where
`missing` does not exist, the listing succeeds and returns only `a` — the
missing dataset is skipped, the call does not fail. -/
theorem C4_counterexample :
    listDatasets
        { allDatasets := []
          datasetExists := fun id => id == ( "a".toList)
          getMetadataLocation := fun _ => .ok (some ( "US".toList))
          tables := fun _ => []
          backupDatasetExists := fun _ => false
          snapshotResult := fun _ _ => none }
        (some [ "a".toList, "missing".toList]) =
      .ok [⟨ "a".toList, some ( "US".toList)⟩] := by
  rfl

/-- C4 (amended). With an explicit list of source dataset IDs, a named
dataset that does not exist is skipped (with a warning): the listing equals
the listing of the remaining IDs.  Only an error while reading an existing
dataset's metadata fails the whole call. -/
theorem C4_missing_dataset_skipped :
    ∀ (env : BackupEnv) (ds1 ds2 : List (List Char)) (missing : List Char),
      env.datasetExists missing = false →
      listDatasetsExplicit env (ds1 ++ missing :: ds2) =
        listDatasetsExplicit env (ds1 ++ ds2) := by
  intro env ds1 ds2 missing hmiss
  induction ds1 with
  | nil => simp [listDatasetsExplicit, hmiss]
  | cons d rest ih => simp [listDatasetsExplicit, ih]

/-- Witness for C4's amended theorem at a concrete environment. -/
theorem C4_missing_dataset_skipped_witness :
    listDatasetsExplicit
        { allDatasets := []
          datasetExists := fun id => id == ( "a".toList)
          getMetadataLocation := fun _ => .ok (some ( "US".toList))
          tables := fun _ => []
          backupDatasetExists := fun _ => false
          snapshotResult := fun _ _ => none }
        ([ "a".toList] ++ ( "missing".toList) :: []) =
      listDatasetsExplicit
        { allDatasets := []
          datasetExists := fun id => id == ( "a".toList)
          getMetadataLocation := fun _ => .ok (some ( "US".toList))
          tables := fun _ => []
          backupDatasetExists := fun _ => false
          snapshotResult := fun _ _ => none }
        ([ "a".toList] ++ []) :=
  C4_missing_dataset_skipped _ [ "a".toList] [] ( "missing".toList) (by decide)

/-! ## Retention calculator and time-travel validation (utils.ts) -/

/-- `utils.ts` `validateTimeTravelTimestamp`: the timestamp must lie within
the last 7 days (`now - 7*24*60*60*1000 ≤ timestamp ≤ now`). -/
def validateTimeTravelTimestamp (timestamp now : Int) : Bool :=
  if timestamp < now - 604800000 then false
  else if now < timestamp then false
  else true

/-- `utils.ts` `calculateExpirationTimestamp`: `undefined` or `0` retention
days mean indefinite retention; otherwise the expiration is the backup
timestamp with its UTC day-of-month advanced by `expirationDays`
(`setUTCDate(getUTCDate() + expirationDays)`). -/
def calculateExpirationTimestamp (backupTimestamp : Int)
    (expirationDays : Option Int) : Option Int :=
  match expirationDays with
  | none => none
  | some d =>
    if d = 0 then none
    else some (jsSetUTCDate backupTimestamp (getUTCDate backupTimestamp + d))

/-- C9. Expiration computation: `undefined` or `0` retention days give no
expiration (unbounded retention); `n > 0` retention days give exactly the
instant plus `n` UTC calendar days — which, UTC calendar arithmetic being
leap-second-free in the ECMAScript time model, is `n * 86400000`
milliseconds, correct across month boundaries and leap days
(`jsSetUTCDate_add` is proved over the full proleptic Gregorian calendar). -/
theorem C9_expiration :
    (∀ t : Int, calculateExpirationTimestamp t none = none) ∧
    (∀ t : Int, calculateExpirationTimestamp t (some 0) = none) ∧
    (∀ (t n : Int), 0 < n →
      calculateExpirationTimestamp t (some n) = some (t + n * 86400000)) := by
  refine ⟨fun t => rfl, fun t => rfl, fun t n hn => ?_⟩
  show (if n = 0 then none else some (jsSetUTCDate t (getUTCDate t + n)))
      = some (t + n * 86400000)
  rw [if_neg (by omega)]
  rw [jsSetUTCDate_add]

/-- Witness for C9: 90 retention days from 2024-12-15T14:30:22Z land on
2025-03-15T14:30:22Z (time value 1742049022000 = 1734273022000 + 90 days). -/
theorem C9_expiration_witness :
    calculateExpirationTimestamp 1734273022000 (some 90) =
      some (1734273022000 + 90 * 86400000) :=
  C9_expiration.2.2 1734273022000 90 (by decide)

/-! ## The backup orchestrator (backup.ts) -/

/-- `types.ts` `BackupResult`. -/
structure BackupResult where
  backupDatasetId : List Char
  sourceDatasetId : List Char
  timestamp : Int
  tablesBackedUp : Nat
  success : Bool
  errors : List (List Char)
deriving Repr, DecidableEq

/-- `types.ts` `BackupOptions` (`projectId` is carried by the service). -/
structure BackupOptions where
  datasets : Option (List (List Char))
  timestamp : Option Int
  expirationDays : Option Int

/-- `BackupService.listTables`: only `TABLE`-type members are eligible. -/
def listTables (env : BackupEnv) (datasetId : List Char) : List TableMeta :=
  (env.tables datasetId).filter (fun tm => tm.type == ( "TABLE".toList))

/-- JavaScript falsiness of the optional `location` metadata field
(`undefined` and the empty string are falsy). -/
def locationFalsy : Option (List Char) → Bool
  | none => true
  | some s => s.isEmpty

def snapshotFailMsg (tableId err : List Char) : List Char :=
  ( "Failed to create snapshot for ".toList) ++ tableId ++ ( ": ".toList) ++ err

def datasetErrMsg (datasetId inner : List Char) : List Char :=
  ( "Error backing up dataset ".toList) ++ datasetId ++ ( ": Error: ".toList) ++ inner

def locationMsg (datasetId : List Char) : List Char :=
  ( "Dataset ".toList) ++ datasetId ++ ( " does not have a location specified".toList)

def collisionMsg (backupDatasetId : List Char) : List Char :=
  ( "Backup dataset ".toList) ++ backupDatasetId ++ ( " already exists".toList)

/-- The body of `BackupService.backupDataset`'s per-dataset loop
(backup.ts lines 211–299): list the eligible tables; an empty dataset is a
vacuous success; a missing location or a backup-container collision marks
this dataset's result fully failed (the loop's `catch`); otherwise fan out
one snapshot per table, counting successes and collecting per-table error
messages, with `success` exactly when no snapshot failed. -/
def backupOneDataset (env : BackupEnv) (backupTimestamp : Int)
    (expirationTimestamp : Option Int) (info : DatasetInfo) : BackupResult :=
  let tables := listTables env info.datasetId
  if tables.isEmpty then
    ⟨[], info.datasetId, backupTimestamp, 0, true, []⟩
  else
    let backupDatasetId := generateBackupDatasetName info.datasetId backupTimestamp
    if locationFalsy info.location then
      ⟨backupDatasetId, info.datasetId, backupTimestamp, 0, false,
        [datasetErrMsg info.datasetId (locationMsg info.datasetId)]⟩
    else if env.backupDatasetExists backupDatasetId then
      ⟨backupDatasetId, info.datasetId, backupTimestamp, 0, false,
        [datasetErrMsg info.datasetId (collisionMsg backupDatasetId)]⟩
    else
      let outcomes := tables.map
        (fun tm => (tm.tableId, env.snapshotResult info.datasetId tm.tableId))
      let successful := (outcomes.filter (fun o => o.2.isNone)).length
      let errs := outcomes.filterMap (fun o => o.2.map (snapshotFailMsg o.1))
      ⟨backupDatasetId, info.datasetId, backupTimestamp, successful,
        errs.isEmpty, errs⟩

/-- The sequential per-dataset loop of `backupDataset`. -/
def backupLoop (env : BackupEnv) (backupTimestamp : Int)
    (expirationTimestamp : Option Int) : List DatasetInfo → List BackupResult
  | [] => []
  | info :: rest =>
    backupOneDataset env backupTimestamp expirationTimestamp info ::
      backupLoop env backupTimestamp expirationTimestamp rest

/-- `BackupService.backupDataset` (backup.ts lines 181–303): default the
timestamp to now, default retention to 90 days, validate a caller-supplied
timestamp against the 7-day time-travel window (failing the whole call),
resolve the datasets, then run the per-dataset loop. -/
def backupDataset (env : BackupEnv) (now : Int) (options : BackupOptions) :
    Except (List Char) (List BackupResult) :=
  let backupTimestamp := options.timestamp.getD now
  let expirationDays := options.expirationDays.getD 90
  let expirationTimestamp :=
    calculateExpirationTimestamp backupTimestamp (some expirationDays)
  match options.timestamp with
  | some ts =>
    if validateTimeTravelTimestamp ts now then
      match listDatasets env options.datasets with
      | .error e => .error e
      | .ok infos => .ok (backupLoop env backupTimestamp expirationTimestamp infos)
    else .error ( "Invalid timestamp for time travel".toList)
  | none =>
    match listDatasets env options.datasets with
    | .error e => .error e
    | .ok infos => .ok (backupLoop env backupTimestamp expirationTimestamp infos)

/-- A snapshot actually created in the warehouse, with the expiration it was
given. -/
structure SnapshotRec where
  backupDatasetId : List Char
  tableId : List Char
  snapshotTimestamp : Int
  expirationTimestamp : Option Int
deriving Repr, DecidableEq

/-- The backup containers `backupOneDataset` creates remotely: exactly one,
unless the dataset is empty or its setup fails before creation. -/
def backupOneContainers (env : BackupEnv) (backupTimestamp : Int)
    (info : DatasetInfo) : List (List Char) :=
  let tables := listTables env info.datasetId
  if tables.isEmpty then []
  else
    let backupDatasetId := generateBackupDatasetName info.datasetId backupTimestamp
    if locationFalsy info.location then []
    else if env.backupDatasetExists backupDatasetId then []
    else [backupDatasetId]

/-- The snapshots `backupOneDataset` creates remotely (the successful
snapshot jobs), each carrying the expiration passed to `CREATE SNAPSHOT`. -/
def backupOneSnapshots (env : BackupEnv) (backupTimestamp : Int)
    (expirationTimestamp : Option Int) (info : DatasetInfo) : List SnapshotRec :=
  let tables := listTables env info.datasetId
  if tables.isEmpty then []
  else
    let backupDatasetId := generateBackupDatasetName info.datasetId backupTimestamp
    if locationFalsy info.location then []
    else if env.backupDatasetExists backupDatasetId then []
    else
      tables.filterMap (fun tm =>
        if (env.snapshotResult info.datasetId tm.tableId).isNone then
          some ⟨backupDatasetId, tm.tableId, backupTimestamp, expirationTimestamp⟩
        else none)

/-- The remote mutations of one whole `backupDataset` call: the containers
and snapshots created.  Mutations only start after validation and dataset
resolution succeed, mirroring the control flow of the source. -/
def backupTrace (env : BackupEnv) (now : Int) (options : BackupOptions) :
    List (List Char) × List SnapshotRec :=
  let backupTimestamp := options.timestamp.getD now
  let expirationTimestamp :=
    calculateExpirationTimestamp backupTimestamp (some (options.expirationDays.getD 90))
  match options.timestamp with
  | some ts =>
    if validateTimeTravelTimestamp ts now then
      match listDatasets env options.datasets with
      | .error _ => ([], [])
      | .ok infos =>
        ((infos.map (backupOneContainers env backupTimestamp)).join,
          (infos.map (backupOneSnapshots env backupTimestamp expirationTimestamp)).join)
    else ([], [])
  | none =>
    match listDatasets env options.datasets with
    | .error _ => ([], [])
    | .ok infos =>
      ((infos.map (backupOneContainers env backupTimestamp)).join,
        (infos.map (backupOneSnapshots env backupTimestamp expirationTimestamp)).join)

/-- C5. Backup partial-failure aggregation: a dataset with 3 eligible
(`TABLE`-kind) members where exactly the middle snapshot fails yields a
result recording 2 successes, exactly one error message, and success=false;
and the sequential loop processes every sibling dataset independently (each
result is a function of that dataset alone). -/
theorem C5_partial_failure :
    (∀ (env : BackupEnv) (bts : Int) (expT : Option Int) (info : DatasetInfo)
        (t1 t2 t3 loc e : List Char),
      env.tables info.datasetId =
        [⟨t1, "TABLE".toList⟩, ⟨t2, "TABLE".toList⟩, ⟨t3, "TABLE".toList⟩] →
      info.location = some loc → loc ≠ [] →
      env.backupDatasetExists (generateBackupDatasetName info.datasetId bts) = false →
      env.snapshotResult info.datasetId t1 = none →
      env.snapshotResult info.datasetId t2 = some e →
      env.snapshotResult info.datasetId t3 = none →
      (backupOneDataset env bts expT info).tablesBackedUp = 2 ∧
      (backupOneDataset env bts expT info).errors = [snapshotFailMsg t2 e] ∧
      (backupOneDataset env bts expT info).success = false) ∧
    (∀ (env : BackupEnv) (bts : Int) (expT : Option Int) (infos : List DatasetInfo),
      backupLoop env bts expT infos = infos.map (backupOneDataset env bts expT)) := by
  constructor
  · intro env bts expT info t1 t2 t3 loc e htab hloc hlocne hcoll hs1 hs2 hs3
    have hfalsy : locationFalsy info.location = false := by
      rw [hloc]
      simp [locationFalsy, hlocne]
    unfold backupOneDataset listTables
    rw [htab]
    simp only [List.filter, beq_self_eq_true, if_true, List.isEmpty, hfalsy, hcoll]
    simp [hs1, hs2, hs3, List.filter, List.filterMap, snapshotFailMsg]
  · intro env bts expT infos
    induction infos with
    | nil => rfl
    | cons i rest ih => simp [backupLoop, ih]

/-- A concrete warehouse for the C5 witness: one dataset with three TABLE
members, of which exactly `t2`'s snapshot job fails. -/
def c5Env : BackupEnv :=
  { allDatasets := []
    datasetExists := fun _ => true
    getMetadataLocation := fun _ => .ok (some ( "US".toList))
    tables := fun _ =>
      [⟨ "t1".toList, "TABLE".toList⟩, ⟨ "t2".toList, "TABLE".toList⟩,
        ⟨ "t3".toList, "TABLE".toList⟩]
    backupDatasetExists := fun _ => false
    snapshotResult := fun _ tid =>
      if tid == ( "t2".toList) then some ( "boom".toList) else none }

/-- Witness for C5 at the concrete environment. -/
theorem C5_partial_failure_witness :
    (backupOneDataset c5Env 0 none ⟨ "d".toList, some ( "US".toList)⟩).tablesBackedUp = 2 ∧
    (backupOneDataset c5Env 0 none ⟨ "d".toList, some ( "US".toList)⟩).errors =
      [snapshotFailMsg ( "t2".toList) ( "boom".toList)] ∧
    (backupOneDataset c5Env 0 none ⟨ "d".toList, some ( "US".toList)⟩).success = false :=
  C5_partial_failure.1 c5Env 0 none ⟨ "d".toList, some ( "US".toList)⟩
    ( "t1".toList) ( "t2".toList) ( "t3".toList) ( "US".toList) ( "boom".toList)
    (by rfl) (by rfl) (by decide) (by rfl) (by decide) (by decide) (by decide)

/-- C8. Backup window validation and atomicity: a caller-supplied instant in
the future or more than 7 days old fails the whole call with the validation
error before any remote mutation (empty mutation trace); an instant inside
the window passes validation. -/
theorem C8_window_validation :
    (∀ (env : BackupEnv) (now : Int) (opts : BackupOptions) (ts : Int),
      opts.timestamp = some ts → (ts < now - 604800000 ∨ now < ts) →
      backupDataset env now opts =
        .error ( "Invalid timestamp for time travel".toList) ∧
      backupTrace env now opts = ([], [])) ∧
    (∀ ts now : Int, now - 604800000 ≤ ts → ts ≤ now →
      validateTimeTravelTimestamp ts now = true) := by
  constructor
  · intro env now opts ts hts hbad
    have hval : validateTimeTravelTimestamp ts now = false := by
      unfold validateTimeTravelTimestamp
      split_ifs with h1 h2 <;> first | rfl | omega
    constructor
    · unfold backupDataset
      rw [hts]
      simp only [hval, Bool.false_eq_true, if_false]
    · unfold backupTrace
      rw [hts]
      simp only [hval, Bool.false_eq_true, if_false]
  · intro ts now h1 h2
    unfold validateTimeTravelTimestamp
    split_ifs with ha hb <;> first | rfl | omega

/-- Witness for C8: now = 10⁹, instant 10⁹ + 1 (in the future) fails the
call with the validation error and creates nothing; instant 10⁹ − 1 passes. -/
theorem C8_window_validation_witness :
    (backupDataset c5Env 1000000000
        ⟨none, some 1000000001, none⟩ =
      .error ( "Invalid timestamp for time travel".toList) ∧
     backupTrace c5Env 1000000000 ⟨none, some 1000000001, none⟩ = ([], [])) ∧
    validateTimeTravelTimestamp 999999999 1000000000 = true :=
  ⟨C8_window_validation.1 c5Env 1000000000 ⟨none, some 1000000001, none⟩
      1000000001 rfl (by omega),
    C8_window_validation.2 999999999 1000000000 (by omega) (by omega)⟩

theorem backupOneSnapshots_fields (env : BackupEnv) (bts : Int)
    (expT : Option Int) (info : DatasetInfo) (rec : SnapshotRec)
    (h : rec ∈ backupOneSnapshots env bts expT info) :
    rec.snapshotTimestamp = bts ∧ rec.expirationTimestamp = expT := by
  simp only [backupOneSnapshots] at h
  split_ifs at h <;>
    first
      | exact absurd h (List.not_mem_nil rec)
      | (rw [List.mem_filterMap] at h
         obtain ⟨tm, htm, hsome⟩ := h
         split_ifs at hsome <;>
           first
             | (simp only [Option.some.injEq] at hsome
                subst hsome
                exact ⟨rfl, rfl⟩)
             | simp at hsome)

/-- Every snapshot in a call's mutation trace was produced by some dataset's
fan-out, with the call-wide timestamp and expiration. -/
theorem backupTrace_snapshots_fields (env : BackupEnv) (now : Int)
    (opts : BackupOptions) (rec : SnapshotRec)
    (hrec : rec ∈ (backupTrace env now opts).2) :
    rec.snapshotTimestamp = opts.timestamp.getD now ∧
      rec.expirationTimestamp =
        calculateExpirationTimestamp (opts.timestamp.getD now)
          (some (opts.expirationDays.getD 90)) := by
  simp only [backupTrace] at hrec
  split at hrec
  · split_ifs at hrec
    · split at hrec
      · simp at hrec
      · simp only [List.mem_join, List.mem_map] at hrec
        obtain ⟨l, ⟨info, hinfo, hl⟩, hmem⟩ := hrec
        subst hl
        exact backupOneSnapshots_fields env _ _ info rec hmem
    · simp at hrec
  · split at hrec
    · simp at hrec
    · simp only [List.mem_join, List.mem_map] at hrec
      obtain ⟨l, ⟨info, hinfo, hl⟩, hmem⟩ := hrec
      subst hl
      exact backupOneSnapshots_fields env _ _ info rec hmem

/-- C10. Implicit default retention: when `expirationDays` is omitted at the
orchestrator interface, every snapshot created by the call carries an
expiration of exactly the backup instant plus 90 UTC calendar days
(90 · 86400000 ms) — not the unbounded retention of the explicit-0 case. -/
theorem C10_default_retention :
    ∀ (env : BackupEnv) (now : Int) (opts : BackupOptions),
      opts.expirationDays = none →
      ∀ rec ∈ (backupTrace env now opts).2,
        rec.snapshotTimestamp = opts.timestamp.getD now ∧
        rec.expirationTimestamp =
          some (opts.timestamp.getD now + 90 * 86400000) := by
  intro env now opts hexp rec hrec
  have h := backupTrace_snapshots_fields env now opts rec hrec
  rw [hexp] at h
  have hcalc : calculateExpirationTimestamp (opts.timestamp.getD now)
      (some ((none : Option Int).getD 90)) =
      some (opts.timestamp.getD now + 90 * 86400000) := by
    show (if (90 : Int) = 0 then none
      else some (jsSetUTCDate (opts.timestamp.getD now)
        (getUTCDate (opts.timestamp.getD now) + 90))) = _
    rw [if_neg (by omega), jsSetUTCDate_add]
  rw [hcalc] at h
  exact h

/-- Witness for C10: in a call with `expirationDays` omitted, the snapshot of
`t1` is created with expiration = instant + 90 days. -/
theorem C10_default_retention_witness :
    (⟨generateBackupDatasetName ( "d".toList) 0, "t1".toList, 0,
        some (0 + 90 * 86400000)⟩ : SnapshotRec).snapshotTimestamp =
      (Option.getD (none : Option Int) 0) ∧
    (⟨generateBackupDatasetName ( "d".toList) 0, "t1".toList, 0,
        some (0 + 90 * 86400000)⟩ : SnapshotRec).expirationTimestamp =
      some (Option.getD (none : Option Int) 0 + 90 * 86400000) :=
  C10_default_retention c5Env 0 ⟨some [ "d".toList], none, none⟩ rfl
    ⟨generateBackupDatasetName ( "d".toList) 0, "t1".toList, 0,
      some (0 + 90 * 86400000)⟩ (by decide)

/-! ## The restore orchestrator (restore.ts) -/

/-- The warehouse oracles used by `RestoreService`. -/
structure RestoreEnv where
  /-- `getTables()` + per-table metadata in a backup dataset -/
  backupTables : List Char → List TableMeta
  /-- `table.exists()` on the restore target: (datasetId, tableId) -/
  tableExists : List Char → List Char → Bool
  /-- outcome of the `CREATE TABLE … CLONE` job:
  (sourceBackupDataset, tableId, targetDataset) ↦ `none` = success -/
  cloneResult : List Char → List Char → List Char → Option (List Char)
  /-- `recreateMaterializedViewsInDataset` (its internal failures are already
  absorbed into the returned count by the source) -/
  mvRecreated : List Char → Nat

/-- `RestoreService.listBackupTables`: only `SNAPSHOT`-type members are
restored. -/
def listBackupTables (env : RestoreEnv) (backupDatasetId : List Char) :
    List (List Char) :=
  ((env.backupTables backupDatasetId).filter
    (fun tm => tm.type == ( "SNAPSHOT".toList))).map (fun tm => tm.tableId)

/-- `restore.ts` `RestoreResult`. -/
structure RestoreResult where
  sourceBackupDatasetId : List Char
  targetDatasetId : List Char
  tablesRestored : Nat
  materializedViewsRecreated : Nat
  success : Bool
  errors : List (List Char)
deriving Repr, DecidableEq

def targetExistsMsg (targetDs targetTid : List Char) : List Char :=
  ( "Target table ".toList) ++ targetDs ++ '.' :: targetTid ++
    ( " already exists. Use --overwrite to replace it.".toList)

def restoreErrMsg (tableId err : List Char) : List Char :=
  ( "Failed to restore table ".toList) ++ tableId ++ ( ": ".toList) ++ err

def exceptOk {ε α : Type} : Except ε α → Bool
  | .ok _ => true
  | .error _ => false

/-- `RestoreService.restoreTable` (restore.ts lines 234–273): if the target
table exists and `overwrite` is off, throw the target-exists error before
issuing any query; otherwise run the clone job (`CREATE OR REPLACE` when
overwriting, plain `CREATE` otherwise — both modelled by the clone oracle). -/
def restoreTable (env : RestoreEnv) (sourceBackupDatasetId sourceTableId
    targetDatasetId targetTableId : List Char) (overwrite : Bool) :
    Except (List Char) Unit :=
  if env.tableExists targetDatasetId targetTableId && !overwrite then
    .error (targetExistsMsg targetDatasetId targetTableId)
  else
    match env.cloneResult sourceBackupDatasetId sourceTableId targetDatasetId with
    | some e => .error e
    | none => .ok ()

/-- The per-container body of `RestoreService.restoreBackups`
(restore.ts lines 294–390): list the snapshot members (vacuous success when
none), fan out one clone per member, count successes, collect per-member
error messages, and recreate materialized views in the target (reported as a
separate counter). -/
def restoreOneBackup (env : RestoreEnv) (overwrite : Bool) (b : BackupInfo) :
    RestoreResult :=
  let tableIds := listBackupTables env b.backupDatasetId
  if tableIds.isEmpty then
    ⟨b.backupDatasetId, b.sourceDatasetId, 0, 0, true, []⟩
  else
    let outcomes := tableIds.map (fun tid =>
      (tid, restoreTable env b.backupDatasetId tid b.sourceDatasetId tid overwrite))
    let successful := (outcomes.filter (fun o => exceptOk o.2)).length
    let errs := outcomes.filterMap (fun o =>
      match o.2 with
      | .error e => some (restoreErrMsg o.1 e)
      | .ok _ => none)
    ⟨b.backupDatasetId, b.sourceDatasetId, successful,
      env.mvRecreated b.sourceDatasetId, errs.isEmpty, errs⟩

/-- `RestoreService.restoreBackups` (restore.ts lines 278–393). -/
def restoreBackups (env : RestoreEnv) (allDatasets : List (List Char))
    (backupTimestamp : Option Int) (overwrite : Bool) :
    Except (List Char) (List RestoreResult) :=
  match backupTimestamp with
  | none => .error ( "Backup timestamp is required".toList)
  | some ts =>
    let backups := listBackupsForTimestamp allDatasets ts
    if backups.isEmpty then
      .error ( "No backup datasets found for timestamp".toList)
    else .ok (backups.map (restoreOneBackup env overwrite))

theorem restoreOne_count (env : RestoreEnv) (b : BackupInfo) (overwrite : Bool)
    (hne : ¬ (listBackupTables env b.backupDatasetId).isEmpty = true) :
    (restoreOneBackup env overwrite b).tablesRestored =
      ((listBackupTables env b.backupDatasetId).filter (fun tid =>
        exceptOk (restoreTable env b.backupDatasetId tid b.sourceDatasetId tid
          overwrite))).length := by
  unfold restoreOneBackup
  rw [if_neg hne]
  simp only [List.filter_map, List.length_map]
  rfl

/-- C6. Restore without `overwrite` onto an existing target member `X`: `X`'s
clone fails with the target-exists error (before any query is issued), the
error is recorded in the container's result, and `X` is excluded from
`tablesRestored`, which counts exactly the sibling members whose clone
succeeded. -/
theorem C6_no_overwrite_target_exists :
    (∀ (env : RestoreEnv) (srcDs X tgtDs : List Char),
      env.tableExists tgtDs X = true →
      restoreTable env srcDs X tgtDs X false = .error (targetExistsMsg tgtDs X)) ∧
    (∀ (env : RestoreEnv) (b : BackupInfo) (X : List Char)
        (tids1 tids2 : List (List Char)),
      listBackupTables env b.backupDatasetId = tids1 ++ X :: tids2 →
      env.tableExists b.sourceDatasetId X = true →
      (restoreOneBackup env false b).tablesRestored =
        ((tids1 ++ tids2).filter (fun tid =>
          exceptOk (restoreTable env b.backupDatasetId tid b.sourceDatasetId tid
            false))).length ∧
      restoreErrMsg X (targetExistsMsg b.sourceDatasetId X) ∈
        (restoreOneBackup env false b).errors) := by
  have hX : ∀ (env : RestoreEnv) (srcDs X tgtDs : List Char),
      env.tableExists tgtDs X = true →
      restoreTable env srcDs X tgtDs X false = .error (targetExistsMsg tgtDs X) := by
    intro env srcDs X tgtDs h
    unfold restoreTable
    rw [if_pos (by simp [h])]
  refine ⟨hX, ?_⟩
  intro env b X tids1 tids2 htids hex
  have hne : ¬ (listBackupTables env b.backupDatasetId).isEmpty = true := by
    rw [htids]
    simp
  constructor
  · rw [restoreOne_count env b false hne, htids]
    rw [List.filter_append, List.filter_cons, List.filter_append]
    rw [hX env b.backupDatasetId X b.sourceDatasetId hex]
    simp [exceptOk]
  · unfold restoreOneBackup
    rw [if_neg hne]
    simp only [List.mem_filterMap]
    refine ⟨(X, restoreTable env b.backupDatasetId X b.sourceDatasetId X false),
      ?_, ?_⟩
    · refine List.mem_map_of_mem _ ?_
      rw [htids]
      exact List.mem_append_right tids1 (List.mem_cons_self X tids2)
    · have hXe := hX env b.backupDatasetId X b.sourceDatasetId hex
      simp only [hXe]

/-- A concrete warehouse for the C6 witness: a backup container with snapshot
members `x` and `y`, where target member `x` already exists and every clone
job succeeds. -/
def c6Env : RestoreEnv :=
  { backupTables := fun _ =>
      [⟨ "x".toList, "SNAPSHOT".toList⟩, ⟨ "y".toList, "SNAPSHOT".toList⟩]
    tableExists := fun _ tid => tid == ( "x".toList)
    cloneResult := fun _ _ _ => none
    mvRecreated := fun _ => 0 }

/-- Witness for C6 at the concrete environment: `x` is excluded, `y` counted. -/
theorem C6_no_overwrite_target_exists_witness :
    (restoreOneBackup c6Env false ⟨ "zzz_backup_d".toList, "d".toList, 0⟩).tablesRestored =
      (([] ++ [ "y".toList]).filter (fun tid =>
        exceptOk (restoreTable c6Env ( "zzz_backup_d".toList) tid ( "d".toList) tid
          false))).length ∧
    restoreErrMsg ( "x".toList) (targetExistsMsg ( "d".toList) ( "x".toList)) ∈
      (restoreOneBackup c6Env false ⟨ "zzz_backup_d".toList, "d".toList, 0⟩).errors :=
  C6_no_overwrite_target_exists.2 c6Env ⟨ "zzz_backup_d".toList, "d".toList, 0⟩
    ( "x".toList) [] [ "y".toList] (by decide) (by decide)

/-! ## The grouping resolver (delete-backups.ts)

`groupBackupsByTimestamp` keys a JavaScript `Map` by
`timestamp.toISOString()`.  A time value determines its ISO string and vice
versa, so the grouping key is modelled by the time value itself. -/

/-- `delete-backups.ts` `BackupGroup` (`timestampStr` is the ISO rendering of
`timestamp` and is omitted). -/
structure BackupGroup where
  timestamp : Int
  backups : List BackupInfo
deriving Repr, DecidableEq

/-- One step of the `Map`-building loop: insertion-ordered grouping, each
backup appended to its (first-seen) key's group. -/
def addToGroup : List BackupGroup → BackupInfo → List BackupGroup
  | [], b => [⟨b.timestamp, [b]⟩]
  | g :: gs, b =>
    if g.timestamp = b.timestamp then ⟨g.timestamp, g.backups ++ [b]⟩ :: gs
    else g :: addToGroup gs b

/-- Stable insertion into a list sorted by group timestamp descending
(`Array.prototype.sort` with comparator `b.timestamp - a.timestamp`). -/
def insertGroupDesc (g : BackupGroup) : List BackupGroup → List BackupGroup
  | [] => [g]
  | x :: xs =>
    if x.timestamp < g.timestamp then g :: x :: xs
    else x :: insertGroupDesc g xs

def sortGroupsDesc (l : List BackupGroup) : List BackupGroup :=
  l.foldr insertGroupDesc []

/-- `DeleteBackupsService.groupBackupsByTimestamp`
(delete-backups.ts lines 24–46). -/
def groupBackupsByTimestamp (backups : List BackupInfo) : List BackupGroup :=
  sortGroupsDesc (backups.foldl addToGroup [])

theorem insertGroupDesc_perm (g : BackupGroup) (l : List BackupGroup) :
    List.Perm (insertGroupDesc g l) (g :: l) := by
  induction l with
  | nil => rfl
  | cons x xs ih =>
    unfold insertGroupDesc
    split
    · rfl
    · exact (List.Perm.cons x ih).trans (List.Perm.swap g x xs)

theorem sortGroupsDesc_perm (l : List BackupGroup) : List.Perm (sortGroupsDesc l) l := by
  induction l with
  | nil => rfl
  | cons x xs ih =>
    exact (insertGroupDesc_perm x (sortGroupsDesc xs)).trans (List.Perm.cons x ih)

theorem insertGroupDesc_sorted (g : BackupGroup) (l : List BackupGroup)
    (h : l.Pairwise (fun a b => b.timestamp ≤ a.timestamp)) :
    (insertGroupDesc g l).Pairwise (fun a b => b.timestamp ≤ a.timestamp) := by
  induction l with
  | nil => simp [insertGroupDesc]
  | cons x xs ih =>
    rw [List.pairwise_cons] at h
    unfold insertGroupDesc
    split
    · rename_i hlt
      rw [List.pairwise_cons]
      refine ⟨?_, List.pairwise_cons.mpr h⟩
      intro y hy
      rcases List.mem_cons.mp hy with rfl | hy2
      · omega
      · have := h.1 y hy2
        omega
    · rename_i hge
      rw [List.pairwise_cons]
      refine ⟨?_, ih h.2⟩
      intro y hy
      have := (insertGroupDesc_perm g xs).mem_iff.mp hy
      rcases List.mem_cons.mp this with rfl | hy2
      · omega
      · exact h.1 y hy2

theorem sortGroupsDesc_sorted (l : List BackupGroup) :
    (sortGroupsDesc l).Pairwise (fun a b => b.timestamp ≤ a.timestamp) := by
  induction l with
  | nil => simp [sortGroupsDesc]
  | cons x xs ih => exact insertGroupDesc_sorted x (sortGroupsDesc xs) ih

theorem addToGroup_keys (acc : List BackupGroup) (b : BackupInfo) :
    (addToGroup acc b).map (fun g => g.timestamp) =
      if b.timestamp ∈ acc.map (fun g => g.timestamp)
      then acc.map (fun g => g.timestamp)
      else acc.map (fun g => g.timestamp) ++ [b.timestamp] := by
  induction acc with
  | nil => simp [addToGroup]
  | cons g gs ih =>
    unfold addToGroup
    by_cases h : g.timestamp = b.timestamp
    · rw [if_pos h]
      simp [h]
    · rw [if_neg h]
      simp only [List.map_cons, ih]
      have hne : ¬ b.timestamp = g.timestamp := fun hc => h hc.symm
      by_cases hmem : b.timestamp ∈ gs.map (fun g => g.timestamp)
      · simp [hmem, hne]
      · simp [hmem, hne]

theorem addToGroup_key_mono (acc : List BackupGroup) (b : BackupInfo) (k : Int)
    (h : k ∈ acc.map (fun g => g.timestamp)) :
    k ∈ (addToGroup acc b).map (fun g => g.timestamp) := by
  rw [addToGroup_keys]
  split
  · exact h
  · exact List.mem_append_left _ h

theorem foldl_addToGroup_key_mono (bs : List BackupInfo) :
    ∀ (acc : List BackupGroup) (k : Int),
      k ∈ acc.map (fun g => g.timestamp) →
      k ∈ ((bs.foldl addToGroup acc).map (fun g => g.timestamp)) := by
  induction bs with
  | nil => intro acc k h; simpa using h
  | cons b rest ih =>
    intro acc k h
    rw [List.foldl_cons]
    exact ih _ k (addToGroup_key_mono acc b k h)

theorem foldl_addToGroup_nodup (bs : List BackupInfo) :
    ∀ acc : List BackupGroup, (acc.map (fun g => g.timestamp)).Nodup →
      ((bs.foldl addToGroup acc).map (fun g => g.timestamp)).Nodup := by
  induction bs with
  | nil => intro acc h; simpa using h
  | cons b rest ih =>
    intro acc h
    rw [List.foldl_cons]
    apply ih
    rw [addToGroup_keys]
    split
    · exact h
    · rename_i hmem
      simp [List.nodup_append, h, hmem]

theorem foldl_addToGroup_mem (bs : List BackupInfo) :
    ∀ (acc : List BackupGroup) (b : BackupInfo), b ∈ bs →
      b.timestamp ∈ ((bs.foldl addToGroup acc).map (fun g => g.timestamp)) := by
  induction bs with
  | nil => intro acc b h; simp at h
  | cons b0 rest ih =>
    intro acc b hb
    rw [List.foldl_cons]
    rcases List.mem_cons.mp hb with rfl | hb2
    · apply foldl_addToGroup_key_mono
      rw [addToGroup_keys]
      split
      · assumption
      · exact List.mem_append_right _ (List.mem_singleton.mpr rfl)
    · exact ih _ b hb2

theorem foldl_addToGroup_source (bs : List BackupInfo) :
    ∀ (acc : List BackupGroup) (g : BackupGroup), g ∈ bs.foldl addToGroup acc →
      g.timestamp ∈ acc.map (fun g => g.timestamp) ∨
        ∃ b ∈ bs, b.timestamp = g.timestamp := by
  induction bs with
  | nil =>
    intro acc g h
    exact Or.inl (List.mem_map_of_mem _ h)
  | cons b rest ih =>
    intro acc g h
    rw [List.foldl_cons] at h
    rcases ih _ g h with hk | ⟨b', hb', hk⟩
    · rw [addToGroup_keys] at hk
      split at hk
      · exact Or.inl hk
      · rcases List.mem_append.mp hk with hk1 | hk2
        · exact Or.inl hk1
        · exact Or.inr ⟨b, List.mem_cons_self b rest,
            (List.mem_singleton.mp hk2).symm⟩
    · exact Or.inr ⟨b', List.mem_cons_of_mem b hb', hk⟩

/-- C7. Grouping: for every list of backup containers,
`groupBackupsByTimestamp` produces one group per distinct instant (keys are
distinct, every container's instant has a group, every group's instant comes
from a container), ordered by instant strictly descending; and on containers
for sources A and B at instant T (2024-12-15T14:30:22Z) plus A at an earlier
T2 (2024-01-01T00:00:00Z) it returns exactly two groups, the T group holding
A and B, with T before T2. -/
theorem C7_grouping :
    (∀ bs : List BackupInfo,
      ((groupBackupsByTimestamp bs).map (fun g => g.timestamp)).Nodup ∧
      (groupBackupsByTimestamp bs).Pairwise
        (fun g1 g2 => g2.timestamp < g1.timestamp) ∧
      (∀ b ∈ bs, b.timestamp ∈
        (groupBackupsByTimestamp bs).map (fun g => g.timestamp)) ∧
      (∀ g ∈ groupBackupsByTimestamp bs, ∃ b ∈ bs, b.timestamp = g.timestamp)) ∧
    groupBackupsByTimestamp
        [⟨ "zzz_backup_20240101_000000_A".toList, "A".toList, 1704067200000⟩,
          ⟨ "zzz_backup_20241215_143022_A".toList, "A".toList, 1734273022000⟩,
          ⟨ "zzz_backup_20241215_143022_B".toList, "B".toList, 1734273022000⟩] =
      [⟨1734273022000,
          [⟨ "zzz_backup_20241215_143022_A".toList, "A".toList, 1734273022000⟩,
            ⟨ "zzz_backup_20241215_143022_B".toList, "B".toList, 1734273022000⟩]⟩,
        ⟨1704067200000,
          [⟨ "zzz_backup_20240101_000000_A".toList, "A".toList,
            1704067200000⟩]⟩] := by
  constructor
  · intro bs
    have hperm : List.Perm (groupBackupsByTimestamp bs) (bs.foldl addToGroup []) :=
      sortGroupsDesc_perm _
    have hpermMap : List.Perm
        ((groupBackupsByTimestamp bs).map (fun g => g.timestamp))
        ((bs.foldl addToGroup []).map (fun g => g.timestamp)) :=
      hperm.map _
    have hnodupF : ((bs.foldl addToGroup []).map (fun g => g.timestamp)).Nodup :=
      foldl_addToGroup_nodup bs [] (by simp)
    have hnodup : ((groupBackupsByTimestamp bs).map (fun g => g.timestamp)).Nodup :=
      hpermMap.symm.nodup hnodupF
    refine ⟨hnodup, ?_, ?_, ?_⟩
    · have hsorted := sortGroupsDesc_sorted (bs.foldl addToGroup [])
      have hne : (groupBackupsByTimestamp bs).Pairwise
          (fun g1 g2 => g1.timestamp ≠ g2.timestamp) := by
        rw [← List.pairwise_map]
        exact hnodup
      exact (hsorted.and hne).imp (fun h => by omega)
    · intro b hb
      exact hpermMap.symm.mem_iff.mp (foldl_addToGroup_mem bs [] b hb)
    · intro g hg
      rcases foldl_addToGroup_source bs [] g (hperm.mem_iff.mp hg) with hk | hsrc
      · simp at hk
      · exact hsrc
  · decide

/-- Witness for C7: a container's instant indexes a group. -/
theorem C7_grouping_witness :
    (1734273022000 : Int) ∈
      (groupBackupsByTimestamp
        [⟨ "zzz_backup_20241215_143022_A".toList, "A".toList,
          1734273022000⟩]).map (fun g => g.timestamp) :=
  (C7_grouping.1 [⟨ "zzz_backup_20241215_143022_A".toList, "A".toList,
      1734273022000⟩]).2.2.1 _ (List.mem_singleton.mpr rfl)
